import Mathlib

/-!
# simple-http-server: `server.c`

A shallow embedding of `src/server.c`.  The program is a sequence of system
calls whose control flow depends only on the values those calls return, so a
process is modelled as a function from the return values the operating system
hands back (an oracle, `Env`) to the list of calls it performs, in program
order, together with the way it ends.

* `Effect` is the vocabulary of calls; calls that return a value the program
  inspects carry that value.
* `sigchld_handler`, `bind_loop`, `worker`, `loop_body`, `accept_loop` and
  `main` follow the C functions and blocks of the same name line by line.
* `fd_step` / `open_fds` is the kernel's descriptor table, replayed over a
  list of calls.
-/

namespace SimpleHttpServer

/-! ## Constants -/

/-- The service the server listens on: `#define PORT "80"`. -/
def PORT : String := "80"

/-- The pending-connection queue depth: `#define BACKLOG 10`. -/
def BACKLOG : Nat := 10

/-- The string literal passed to `send` on line 187. -/
def greeting : String := "Hello, world!"

/-- The bytes of a C string literal as it is laid out in memory: its
characters followed by the NUL terminator. -/
def c_literal (s : String) : List Char := s.toList ++ [Char.ofNat 0]

/-- The bytes `send(fd, buf, len, 0)` hands to the kernel: the first `len`
bytes of the buffer. -/
def payload (buf : String) (len : Nat) : List Char := (c_literal buf).take len

/-! ## Calls -/

/-- The `options` argument of `waitpid`. -/
inductive WaitOptions where
  | blocking
  | WNOHANG
  deriving DecidableEq, Repr

/-- The signals `server.c` is concerned with: it installs a handler for
`SIGCHLD` only (lines 138-145), so `SIGPIPE` keeps its default action, which
ends the process. -/
inductive Signal where
  | SIGCHLD
  | SIGPIPE
  deriving DecidableEq, Repr

/-- What a call of `send` with flags 0 does to its caller: it returns a value
(the number of bytes taken, or `-1`), or, when the peer has already shut the
connection down, it raises `SIGPIPE`, whose default action ends the process
inside the call. -/
inductive SendResult where
  | returned (ret : Int)
  | sigpipe
  deriving DecidableEq, Repr

/-- The calls a process makes.  `p : Nat` is the position of an `addrinfo`
node in the list `getaddrinfo` returned; `ret` is the value the call returned.
`recv` and `read` are part of the vocabulary although `server.c` never issues
them. -/
inductive Effect where
  | getaddrinfo (service : String) (ret : Int)
  | fprintf_stderr (msg : String)
  | printf (msg : String)
  | perror (msg : String)
  | socket (p : Nat) (ret : Int)
  | setsockopt (fd : Int) (ret : Int)
  | bind (fd : Int) (p : Nat) (ret : Int)
  | close (fd : Int)
  | freeaddrinfo
  | listen (fd : Int) (backlog : Nat) (ret : Int)
  | sigaction (ret : Int)
  | accept (fd : Int) (ret : Int)
  | inet_ntop
  | fork (ret : Int)
  | send (fd : Int) (buf : String) (len : Nat) (flags : Int) (res : SendResult)
  | recv (fd : Int)
  | read (fd : Int)
  | waitpid (pid : Int) (options : WaitOptions) (ret : Int)
  deriving DecidableEq, Repr

/-- How a process run ends: `return` from `main`, a call of `exit`, death by a
signal whose action is to end the process, or (for a finite list of
connection events) still inside `while(1)`, about to call `accept` on
`servsockfd`. -/
inductive Outcome where
  | returned (status : Int)
  | exited (status : Int)
  | killed (sig : Signal)
  | serving (servsockfd : Int)
  deriving DecidableEq, Repr

/-- The exit status of a process that has ended. -/
def Outcome.status : Outcome → Option Int
  | .returned s => some s
  | .exited s => some s
  | .killed _ => none
  | .serving _ => none

/-! ## `sigchld_handler` (lines 18-26) -/

/-- One answer of `waitpid`: the value returned and what the call did to
`errno` (`none`: left alone, `some e`: overwritten with `e`). -/
structure WaitResult where
  ret : Int
  errnoWritten : Option Int
  deriving DecidableEq, Repr

/-- What `sigchld_handler` leaves behind: `errno`, the calls made, and the
answers of `waitpid` not consumed. -/
structure HandlerResult where
  errno : Int
  effects : List Effect
  rest : List WaitResult
  deriving DecidableEq, Repr

/-- Line 23, `while(waitpid(-1, NULL, WNOHANG) > 0);`, run against a list of
answers.  `errno` is the current value of `errno`.  Returns `none` when the
answers run out while the loop is still going. -/
def reap_loop : List WaitResult → Int → Option (Int × List Effect × List WaitResult)
  | [], _ => none
  | w :: ws, errno =>
    let errno1 := w.errnoWritten.getD errno
    if w.ret > 0 then
      match reap_loop ws errno1 with
      | none => none
      | some (e, effs, rest) => some (e, Effect.waitpid (-1) .WNOHANG w.ret :: effs, rest)
    else
      some (errno1, [Effect.waitpid (-1) .WNOHANG w.ret], ws)

/-- Lines 18-26. `errno` is the value of `errno` on entry. -/
def sigchld_handler (_s : Int) (errno : Int) (answers : List WaitResult) :
    Option HandlerResult :=
  let saved_errno := errno
  match reap_loop answers errno with
  | none => none
  | some (_, effs, rest) => some { errno := saved_errno, effects := effs, rest := rest }

/-! ## The bind loop (lines 86-111) -/

/-- One `addrinfo` node of the list `getaddrinfo` returned, given by what
`socket`, `setsockopt` and `bind` return when called for it. -/
structure Candidate where
  socketRet : Int
  setsockoptRet : Int
  bindRet : Int
  deriving DecidableEq, Repr

/-- How the `for` loop of lines 90-111 is left. -/
inductive LoopResult where
  /-- Left by `break` on line 110: `p` is the node bound, `servsockfd` its socket. -/
  | selected (p : Nat) (servsockfd : Int)
  /-- The list is used up: `p == NULL`. -/
  | null
  /-- Left by `exit(1)` on line 100; `servsockfd` is the socket just created. -/
  | fatal (servsockfd : Int)
  deriving DecidableEq, Repr

/-- Lines 90-111, on the nodes from position `i` on. -/
def bind_loop : List Candidate → Nat → List Effect × LoopResult
  | [], _ => ([], .null)
  | c :: rest, i =>
    let servsockfd := c.socketRet
    if servsockfd = -1 then
      let r := bind_loop rest (i + 1)
      (Effect.socket i servsockfd :: Effect.perror "server: socket" :: r.1, r.2)
    else if c.setsockoptRet = -1 then
      ([Effect.socket i servsockfd, Effect.setsockopt servsockfd c.setsockoptRet,
        Effect.perror "setsockopt"], .fatal servsockfd)
    else if c.bindRet = -1 then
      let r := bind_loop rest (i + 1)
      (Effect.socket i servsockfd :: Effect.setsockopt servsockfd c.setsockoptRet ::
        Effect.bind servsockfd i c.bindRet :: Effect.close servsockfd ::
        Effect.perror "server: bind" :: r.1, r.2)
    else
      ([Effect.socket i servsockfd, Effect.setsockopt servsockfd c.setsockoptRet,
        Effect.bind servsockfd i c.bindRet], .selected i servsockfd)

/-! ## The accept loop (lines 171-193) -/

/-- One turn of `while(1)`: what `accept` returns, the bytes the client then
sends on the connection, what `fork` returns in this process and what `send`
does there. -/
structure Conn where
  acceptRet : Int
  clientData : List Nat
  forkRet : Int
  sendRes : SendResult
  deriving DecidableEq, Repr

/-- Lines 186-190: the child.  When `send` raises `SIGPIPE` the process ends
inside the call on line 187 and lines 188-190 are not reached. -/
def worker (servsockfd clisockfd : Int) (c : Conn) : List Effect × Outcome :=
  match c.sendRes with
  | .sigpipe =>
    ([Effect.close servsockfd, Effect.send clisockfd greeting 13 0 .sigpipe],
      .killed .SIGPIPE)
  | .returned ret =>
    ([Effect.close servsockfd, Effect.send clisockfd greeting 13 0 (.returned ret)]
      ++ (if ret = -1 then [Effect.perror "send"] else [])
      ++ [Effect.close clisockfd], .exited 0)

/-- Lines 172-192: one turn of the loop.  The second component is `none` when
the loop goes on (`continue` on line 177 or falling off line 192). -/
def loop_body (servsockfd : Int) (c : Conn) : List Effect × Option Outcome :=
  let clisockfd := c.acceptRet
  if clisockfd = -1 then
    ([Effect.accept servsockfd clisockfd, Effect.perror "accept"], none)
  else if c.forkRet = 0 then
    let w := worker servsockfd clisockfd c
    (Effect.accept servsockfd clisockfd :: Effect.inet_ntop ::
      Effect.printf "server: got connection from %s\n" :: Effect.fork c.forkRet :: w.1,
      some w.2)
  else
    ([Effect.accept servsockfd clisockfd, Effect.inet_ntop,
      Effect.printf "server: got connection from %s\n", Effect.fork c.forkRet,
      Effect.close clisockfd], none)

/-- Lines 171-193 over a finite list of turns. -/
def accept_loop (servsockfd : Int) : List Conn → List Effect × Outcome
  | [] => ([], .serving servsockfd)
  | c :: rest =>
    match loop_body servsockfd c with
    | (effs, some o) => (effs, o)
    | (effs, none) =>
      let r := accept_loop servsockfd rest
      (effs ++ r.1, r.2)

/-! ## `main` (lines 38-194) -/

/-- Everything the operating system answers during one run of `main`. -/
structure Env where
  gaiRet : Int
  servinfo : List Candidate
  listenRet : Int
  sigactionRet : Int
  conns : List Conn
  deriving DecidableEq, Repr

/-- Lines 66-147: everything before `while(1)`.  Ends in `serving servsockfd`
when the loop is reached. -/
def startup (env : Env) : List Effect × Outcome :=
  let rv := env.gaiRet
  if rv ≠ 0 then
    ([Effect.getaddrinfo PORT rv, Effect.fprintf_stderr "getaddrinfo: %s\n"], .returned 1)
  else
    let l := bind_loop env.servinfo 0
    match l.2 with
    | .fatal _ => (Effect.getaddrinfo PORT rv :: l.1, .exited 1)
    | .null =>
      (Effect.getaddrinfo PORT rv :: l.1 ++
        [Effect.freeaddrinfo, Effect.fprintf_stderr "server: failed to bind\n"], .exited 1)
    | .selected _ servsockfd =>
      if env.listenRet = -1 then
        (Effect.getaddrinfo PORT rv :: l.1 ++
          [Effect.freeaddrinfo, Effect.listen servsockfd BACKLOG env.listenRet,
           Effect.perror "listen"], .exited 1)
      else if env.sigactionRet = -1 then
        (Effect.getaddrinfo PORT rv :: l.1 ++
          [Effect.freeaddrinfo, Effect.listen servsockfd BACKLOG env.listenRet,
           Effect.sigaction env.sigactionRet, Effect.perror "sigaction"], .exited 1)
      else
        (Effect.getaddrinfo PORT rv :: l.1 ++
          [Effect.freeaddrinfo, Effect.listen servsockfd BACKLOG env.listenRet,
           Effect.sigaction env.sigactionRet,
           Effect.printf "server: waiting for connections...\n"], .serving servsockfd)

/-- The whole of `main`: `startup`, then the accept loop. -/
def main (env : Env) : List Effect × Outcome :=
  let s := startup env
  match s.2 with
  | .serving servsockfd =>
    let r := accept_loop servsockfd env.conns
    (s.1 ++ r.1, r.2)
  | o => (s.1, o)

/-! ## The descriptor table -/

/-- The effect of one call on the set of open socket descriptors.  `socket`
and `accept` return `-1` on failure and a new descriptor otherwise; `close`
releases the descriptor. -/
def fd_step (fds : List Int) : Effect → List Int
  | .socket _ ret => if ret = -1 then fds else fds ++ [ret]
  | .accept _ ret => if ret = -1 then fds else fds ++ [ret]
  | .close fd => fds.filter (fun x => x ≠ fd)
  | _ => fds

/-- The open socket descriptors after a list of calls, from the table `fds`. -/
def open_fds (fds : List Int) (effs : List Effect) : List Int :=
  effs.foldl fd_step fds

/-! ## Processes -/

/-- The processes that come out of one turn of the loop in the process that
calls `fork`: that process itself and, when `fork` succeeded there (it
returned a positive pid), the child, which runs the same turn with `fork`
returning `0`. -/
def turn_runs (servsockfd : Int) (c : Conn) : List (List Effect × Option Outcome) :=
  loop_body servsockfd c ::
    (if c.acceptRet ≠ -1 ∧ c.forkRet > 0 then
      [loop_body servsockfd { c with forkRet := 0 }] else [])

/-- Calls that only write diagnostics. -/
def is_diagnostic : Effect → Bool
  | .perror _ => true
  | .fprintf_stderr _ => true
  | .printf _ => true
  | _ => false

/-- Calls that read from a descriptor. -/
def is_read : Effect → Bool
  | .recv _ => true
  | .read _ => true
  | _ => false

/-- Calls that send on any descriptor. -/
def is_send : Effect → Bool
  | .send _ _ _ _ _ => true
  | _ => false

/-- The positions of the `addrinfo` nodes for which `socket` was called, in the
order of the calls. -/
def socket_positions : List Effect → List Nat
  | [] => []
  | .socket p _ :: l => p :: socket_positions l
  | _ :: l => socket_positions l

/-- A `setsockopt` call that returned `-1`. -/
def is_failed_setsockopt : Effect → Bool
  | .setsockopt _ ret => ret = -1
  | _ => false

/-- A `bind` call that returned `-1`. -/
def is_failed_bind : Effect → Bool
  | .bind _ _ ret => ret = -1
  | _ => false

/-- A `close` call. -/
def is_close : Effect → Bool
  | .close _ => true
  | _ => false

/-- An `accept` call. -/
def is_accept : Effect → Bool
  | .accept _ _ => true
  | _ => false

/-- Both `socket` and `bind` succeed for the node. -/
def Candidate.bindable (c : Candidate) : Prop := c.socketRet ≠ -1 ∧ c.bindRet ≠ -1

instance (c : Candidate) : Decidable c.bindable := by
  unfold Candidate.bindable; infer_instance

/-- What the operating system answers in one turn of the loop, the bytes the
client sends left out. -/
def Conn.answers (c : Conn) : Int × Int × SendResult :=
  (c.acceptRet, c.forkRet, c.sendRes)

/-- What the operating system answers during a run, the bytes the clients send
left out. -/
def Env.answers (env : Env) :
    (Int × List Candidate × Int × Int) × List (Int × Int × SendResult) :=
  ((env.gaiRet, env.servinfo, env.listenRet, env.sigactionRet), env.conns.map Conn.answers)

/-- The descriptor a call works on, when it has one. -/
def fd_of : Effect → Option Int
  | .setsockopt fd _ => some fd
  | .bind fd _ _ => some fd
  | .close fd => some fd
  | .listen fd _ _ => some fd
  | .accept fd _ => some fd
  | .send fd _ _ _ _ => some fd
  | .recv fd => some fd
  | .read fd => some fd
  | _ => none

/-- The calls made on descriptor `fd`, in order. -/
def calls_on (fd : Int) (effs : List Effect) : List Effect :=
  effs.filter (fun e => fd_of e = some fd)

/-! ## Reaping -/

theorem reap_loop_run (pids : List WaitResult) (last : WaitResult) (rest : List WaitResult)
    (hpos : ∀ w ∈ pids, w.ret > 0) (hlast : last.ret ≤ 0) (errno : Int) :
    ∃ e, reap_loop (pids ++ last :: rest) errno =
      some (e, (pids ++ [last]).map (fun w => Effect.waitpid (-1) .WNOHANG w.ret), rest) := by
  induction pids generalizing errno with
  | nil =>
    have h : ¬ last.ret > 0 := by omega
    exact ⟨last.errnoWritten.getD errno, by simp [reap_loop, h]⟩
  | cons w ws ih =>
    have hw : w.ret > 0 := hpos w (by simp)
    obtain ⟨e, he⟩ := ih (fun x hx => hpos x (by simp [hx])) (w.errnoWritten.getD errno)
    exact ⟨e, by simp [reap_loop, hw, he]⟩

/-- C10: entered with any `errno` and any signal number, and with `waitpid`
answering `k` positive pids and then a non-positive value (whatever each call
does to `errno`), `sigchld_handler` returns, having called
`waitpid(-1, NULL, WNOHANG)` exactly `k + 1` times and nothing else, with
`errno` equal to its value on entry; the answers after the non-positive one
are not consumed. -/
theorem sigchld_handler_reaps (s errno : Int) (pids : List WaitResult) (last : WaitResult)
    (rest : List WaitResult) (hpos : ∀ w ∈ pids, w.ret > 0) (hlast : last.ret ≤ 0) :
    ∃ r, sigchld_handler s errno (pids ++ last :: rest) = some r ∧
      r.errno = errno ∧
      r.effects = (pids ++ [last]).map (fun w => Effect.waitpid (-1) .WNOHANG w.ret) ∧
      r.effects.length = pids.length + 1 ∧
      r.rest = rest := by
  obtain ⟨e, he⟩ := reap_loop_run pids last rest hpos hlast errno
  refine ⟨⟨errno, _, rest⟩, ?_, rfl, rfl, by simp, rfl⟩
  simp [sigchld_handler, he]

/-- Witness for `sigchld_handler_reaps`: two children reaped, `errno` 4 on
entry, the last call sets `errno` to 10 (ECHILD). -/
theorem sigchld_handler_reaps_witness :
    ∃ r, sigchld_handler 17 4
        ([WaitResult.mk 101 none, WaitResult.mk 102 (some 0)] ++
          WaitResult.mk (-1) (some 10) :: []) = some r ∧
      r.errno = 4 ∧
      r.effects = ([WaitResult.mk 101 none, WaitResult.mk 102 (some 0)] ++
          [WaitResult.mk (-1) (some 10)]).map
        (fun w => Effect.waitpid (-1) .WNOHANG w.ret) ∧
      r.effects.length = [WaitResult.mk 101 none, WaitResult.mk 102 (some 0)].length + 1 ∧
      r.rest = [] :=
  sigchld_handler_reaps 17 4 [WaitResult.mk 101 none, WaitResult.mk 102 (some 0)]
    (WaitResult.mk (-1) (some 10)) [] (by decide) (by decide)

/-! ## The descriptor table: replay lemmas -/

@[simp] theorem open_fds_nil (fds : List Int) : open_fds fds [] = fds := rfl

@[simp] theorem open_fds_cons (fds : List Int) (e : Effect) (l : List Effect) :
    open_fds fds (e :: l) = open_fds (fd_step fds e) l := rfl

theorem open_fds_append (fds : List Int) (l₁ l₂ : List Effect) :
    open_fds fds (l₁ ++ l₂) = open_fds (open_fds fds l₁) l₂ := by
  simp [open_fds, List.foldl_append]

/-! ## The bind loop: unfolding -/

theorem bind_loop_socket_failed (c : Candidate) (rest : List Candidate) (i : Nat)
    (h : c.socketRet = -1) :
    bind_loop (c :: rest) i =
      (Effect.socket i (-1) :: Effect.perror "server: socket" :: (bind_loop rest (i + 1)).1,
        (bind_loop rest (i + 1)).2) := by
  simp [bind_loop, h]

theorem bind_loop_setsockopt_failed (c : Candidate) (rest : List Candidate) (i : Nat)
    (h₁ : c.socketRet ≠ -1) (h₂ : c.setsockoptRet = -1) :
    bind_loop (c :: rest) i =
      ([Effect.socket i c.socketRet, Effect.setsockopt c.socketRet (-1),
        Effect.perror "setsockopt"], .fatal c.socketRet) := by
  simp [bind_loop, h₁, h₂]

theorem bind_loop_bind_failed (c : Candidate) (rest : List Candidate) (i : Nat)
    (h₁ : c.socketRet ≠ -1) (h₂ : c.setsockoptRet ≠ -1) (h₃ : c.bindRet = -1) :
    bind_loop (c :: rest) i =
      (Effect.socket i c.socketRet :: Effect.setsockopt c.socketRet c.setsockoptRet ::
        Effect.bind c.socketRet i (-1) :: Effect.close c.socketRet ::
        Effect.perror "server: bind" :: (bind_loop rest (i + 1)).1,
        (bind_loop rest (i + 1)).2) := by
  simp [bind_loop, h₁, h₂, h₃]

theorem bind_loop_bound (c : Candidate) (rest : List Candidate) (i : Nat)
    (h₁ : c.socketRet ≠ -1) (h₂ : c.setsockoptRet ≠ -1) (h₃ : c.bindRet ≠ -1) :
    bind_loop (c :: rest) i =
      ([Effect.socket i c.socketRet, Effect.setsockopt c.socketRet c.setsockoptRet,
        Effect.bind c.socketRet i c.bindRet], .selected i c.socketRet) := by
  simp [bind_loop, h₁, h₂, h₃]

/-- The four ways one pass through the loop body can go. -/
theorem bind_loop_cases (c : Candidate) :
    c.socketRet = -1 ∨
    (c.socketRet ≠ -1 ∧ c.setsockoptRet = -1) ∨
    (c.socketRet ≠ -1 ∧ c.setsockoptRet ≠ -1 ∧ c.bindRet = -1) ∨
    (c.socketRet ≠ -1 ∧ c.setsockoptRet ≠ -1 ∧ c.bindRet ≠ -1) := by
  by_cases h₁ : c.socketRet = -1
  · exact Or.inl h₁
  · by_cases h₂ : c.setsockoptRet = -1
    · exact Or.inr (Or.inl ⟨h₁, h₂⟩)
    · by_cases h₃ : c.bindRet = -1
      · exact Or.inr (Or.inr (Or.inl ⟨h₁, h₂, h₃⟩))
      · exact Or.inr (Or.inr (Or.inr ⟨h₁, h₂, h₃⟩))

/-! ## The bind loop: which node is chosen -/

/-- Leaving by `break`: the node bound is the first bindable one, and `socket`
was called for the nodes up to it, in order. -/
theorem bind_loop_selected (cs : List Candidate) (i p : Nat) (fd : Int)
    (h : (bind_loop cs i).2 = .selected p fd) :
    ∃ k c, p = i + k ∧ cs[k]? = some c ∧ c.bindable ∧ fd = c.socketRet ∧
      (∀ j c', j < k → cs[j]? = some c' → ¬ c'.bindable) ∧
      socket_positions (bind_loop cs i).1 = List.range' i (k + 1) := by
  induction cs generalizing i with
  | nil => simp [bind_loop] at h
  | cons c rest ih =>
    rcases bind_loop_cases c with h₁ | ⟨h₁, h₂⟩ | ⟨h₁, h₂, h₃⟩ | ⟨h₁, h₂, h₃⟩
    · rw [bind_loop_socket_failed c rest i h₁] at h ⊢
      obtain ⟨k, c₀, hp, hk, hb, hfd, hmin, hpos⟩ := ih (i + 1) h
      refine ⟨k + 1, c₀, by omega, by simpa using hk, hb, hfd, ?_, ?_⟩
      · intro j c' hj hc'
        cases j with
        | zero =>
          simp at hc'
          subst hc'
          exact fun hb' => hb'.1 h₁
        | succ j => exact hmin j c' (by omega) (by simpa using hc')
      · simp [socket_positions, hpos, List.range'_succ]
    · rw [bind_loop_setsockopt_failed c rest i h₁ h₂] at h
      simp at h
    · rw [bind_loop_bind_failed c rest i h₁ h₂ h₃] at h ⊢
      obtain ⟨k, c₀, hp, hk, hb, hfd, hmin, hpos⟩ := ih (i + 1) h
      refine ⟨k + 1, c₀, by omega, by simpa using hk, hb, hfd, ?_, ?_⟩
      · intro j c' hj hc'
        cases j with
        | zero =>
          simp at hc'
          subst hc'
          exact fun hb' => hb'.2 h₃
        | succ j => exact hmin j c' (by omega) (by simpa using hc')
      · simp [socket_positions, hpos, List.range'_succ]
    · rw [bind_loop_bound c rest i h₁ h₂ h₃] at h ⊢
      simp at h
      refine ⟨0, c, by omega, by simp, ⟨h₁, h₃⟩, h.2.symm, ?_, ?_⟩
      · intro j c' hj
        omega
      · simp [socket_positions]

/-- Leaving with `p == NULL`: no node is bindable, and `socket` was called for
every node, in order. -/
theorem bind_loop_null (cs : List Candidate) (i : Nat)
    (h : (bind_loop cs i).2 = .null) :
    (∀ c ∈ cs, ¬ c.bindable) ∧
      socket_positions (bind_loop cs i).1 = List.range' i cs.length := by
  induction cs generalizing i with
  | nil => simp [bind_loop, socket_positions]
  | cons c rest ih =>
    rcases bind_loop_cases c with h₁ | ⟨h₁, h₂⟩ | ⟨h₁, h₂, h₃⟩ | ⟨h₁, h₂, h₃⟩
    · rw [bind_loop_socket_failed c rest i h₁] at h ⊢
      obtain ⟨hno, hpos⟩ := ih (i + 1) h
      refine ⟨?_, by simp [socket_positions, hpos, List.range'_succ]⟩
      intro c' hc'
      rcases List.mem_cons.mp hc' with rfl | hc'
      · exact fun hb => hb.1 h₁
      · exact hno c' hc'
    · rw [bind_loop_setsockopt_failed c rest i h₁ h₂] at h
      simp at h
    · rw [bind_loop_bind_failed c rest i h₁ h₂ h₃] at h ⊢
      obtain ⟨hno, hpos⟩ := ih (i + 1) h
      refine ⟨?_, by simp [socket_positions, hpos, List.range'_succ]⟩
      intro c' hc'
      rcases List.mem_cons.mp hc' with rfl | hc'
      · exact fun hb => hb.2 h₃
      · exact hno c' hc'
    · rw [bind_loop_bound c rest i h₁ h₂ h₃] at h
      simp at h

/-- The loop is left by `exit(1)` exactly when some `setsockopt` it called
returned `-1`. -/
theorem bind_loop_fatal_iff (cs : List Candidate) (i : Nat) :
    (∃ fd, (bind_loop cs i).2 = .fatal fd) ↔
      ∃ e ∈ (bind_loop cs i).1, is_failed_setsockopt e = true := by
  induction cs generalizing i with
  | nil => simp [bind_loop]
  | cons c rest ih =>
    rcases bind_loop_cases c with h₁ | ⟨h₁, h₂⟩ | ⟨h₁, h₂, h₃⟩ | ⟨h₁, h₂, h₃⟩
    · rw [bind_loop_socket_failed c rest i h₁]
      simp [is_failed_setsockopt]
      simpa using ih (i + 1)
    · rw [bind_loop_setsockopt_failed c rest i h₁ h₂]
      simp [is_failed_setsockopt]
    · rw [bind_loop_bind_failed c rest i h₁ h₂ h₃]
      simp [is_failed_setsockopt, h₂]
      simpa using ih (i + 1)
    · rw [bind_loop_bound c rest i h₁ h₂ h₃]
      simp [is_failed_setsockopt, h₂]

/-- Leaving by `break`: the last three calls are the `socket`, `setsockopt` and
successful `bind` for the node chosen. -/
theorem bind_loop_selected_tail (cs : List Candidate) (i p : Nat) (fd : Int)
    (h : (bind_loop cs i).2 = .selected p fd) :
    ∃ pre r₁ r₂, r₂ ≠ -1 ∧ (bind_loop cs i).1 =
      pre ++ [Effect.socket p fd, Effect.setsockopt fd r₁, Effect.bind fd p r₂] := by
  induction cs generalizing i with
  | nil => simp [bind_loop] at h
  | cons c rest ih =>
    rcases bind_loop_cases c with h₁ | ⟨h₁, h₂⟩ | ⟨h₁, h₂, h₃⟩ | ⟨h₁, h₂, h₃⟩
    · rw [bind_loop_socket_failed c rest i h₁] at h ⊢
      obtain ⟨pre, r₁, r₂, hr, hpre⟩ := ih (i + 1) h
      exact ⟨Effect.socket i (-1) :: Effect.perror "server: socket" :: pre, r₁, r₂, hr,
        by simp [hpre]⟩
    · rw [bind_loop_setsockopt_failed c rest i h₁ h₂] at h
      simp at h
    · rw [bind_loop_bind_failed c rest i h₁ h₂ h₃] at h ⊢
      obtain ⟨pre, r₁, r₂, hr, hpre⟩ := ih (i + 1) h
      exact ⟨Effect.socket i c.socketRet :: Effect.setsockopt c.socketRet c.setsockoptRet ::
        Effect.bind c.socketRet i (-1) :: Effect.close c.socketRet ::
        Effect.perror "server: bind" :: pre, r₁, r₂, hr, by simp [hpre]⟩
    · rw [bind_loop_bound c rest i h₁ h₂ h₃] at h ⊢
      simp at h
      obtain ⟨rfl, rfl⟩ := h
      exact ⟨[], c.setsockoptRet, c.bindRet, h₃, by simp⟩

/-- C3: when no `setsockopt` the loop calls returns `-1`, the bind loop takes
the nodes in list order and stops at the first one for which `socket` and
`bind` both succeed: it leaves by `break` with `p` and `servsockfd` exactly
when `p` is the lowest position holding such a node and `servsockfd` is what
`socket` returned for it; `socket` was then called for positions `0..p` in
order and for no later node, the successful `bind` of node `p` being the last
call; and `p` is `NULL` exactly when no node has both succeeding (every node
was then tried, in order). -/
theorem bind_loop_first_bindable (cs : List Candidate)
    (hopt : ∀ e ∈ (bind_loop cs 0).1, is_failed_setsockopt e = false) :
    (∀ p fd, (bind_loop cs 0).2 = .selected p fd ↔
      ∃ c, cs[p]? = some c ∧ c.bindable ∧ fd = c.socketRet ∧
        ∀ j c', j < p → cs[j]? = some c' → ¬ c'.bindable) ∧
    (∀ p fd, (bind_loop cs 0).2 = .selected p fd →
      socket_positions (bind_loop cs 0).1 = List.range (p + 1) ∧
      ∃ pre r₁ r₂, r₂ ≠ -1 ∧ (bind_loop cs 0).1 =
        pre ++ [Effect.socket p fd, Effect.setsockopt fd r₁, Effect.bind fd p r₂]) ∧
    ((bind_loop cs 0).2 = .null ↔ ∀ c ∈ cs, ¬ c.bindable) ∧
    ((bind_loop cs 0).2 = .null →
      socket_positions (bind_loop cs 0).1 = List.range cs.length) := by
  have hnofatal : ∀ fd, (bind_loop cs 0).2 ≠ .fatal fd := by
    intro fd hfd
    obtain ⟨e, he, hbad⟩ := (bind_loop_fatal_iff cs 0).mp ⟨fd, hfd⟩
    rw [hopt e he] at hbad
    exact Bool.false_ne_true hbad
  have hsel : ∀ p fd, (bind_loop cs 0).2 = .selected p fd →
      ∃ c, cs[p]? = some c ∧ c.bindable ∧ fd = c.socketRet ∧
        ∀ j c', j < p → cs[j]? = some c' → ¬ c'.bindable := by
    intro p fd h
    obtain ⟨k, c, hp, hk, hb, hfd, hmin, _⟩ := bind_loop_selected cs 0 p fd h
    have hpk : p = k := by omega
    subst hpk
    exact ⟨c, hk, hb, hfd, hmin⟩
  refine ⟨?_, ?_, ?_, ?_⟩
  · intro p fd
    refine ⟨hsel p fd, ?_⟩
    rintro ⟨c, hc, hb, hfd, hmin⟩
    cases hres : (bind_loop cs 0).2 with
    | selected p' fd' =>
      obtain ⟨c', hc', hb', hfd', hmin'⟩ := hsel p' fd' hres
      have hpp : p' = p := by
        rcases Nat.lt_trichotomy p' p with hlt | heq | hgt
        · exact absurd hb' (hmin p' c' hlt hc')
        · exact heq
        · exact absurd hb (hmin' p c hgt hc)
      subst hpp
      rw [hc] at hc'
      cases hc'
      rw [hfd, hfd']
    | null =>
      have hmem : c ∈ cs := List.getElem?_mem hc
      exact absurd hb ((bind_loop_null cs 0 hres).1 c hmem)
    | fatal fd' => exact absurd hres (hnofatal fd')
  · intro p fd h
    obtain ⟨k, c, hp, _, _, _, _, hpos⟩ := bind_loop_selected cs 0 p fd h
    have hpk : p = k := by omega
    subst hpk
    exact ⟨by rw [hpos, List.range_eq_range'], bind_loop_selected_tail cs 0 p fd h⟩
  · refine ⟨fun h => (bind_loop_null cs 0 h).1, ?_⟩
    intro hno
    cases hres : (bind_loop cs 0).2 with
    | selected p fd =>
      obtain ⟨c, hc, hb, _⟩ := hsel p fd hres
      exact absurd hb (hno c (List.getElem?_mem hc))
    | null => rfl
    | fatal fd' => exact absurd hres (hnofatal fd')
  · intro h
    rw [(bind_loop_null cs 0 h).2, List.range_eq_range']

/-- Witness for `bind_loop_first_bindable`: `socket` fails for node 0, `bind`
fails for node 1, node 2 is bound on descriptor 3, node 3 is never tried. -/
theorem bind_loop_first_bindable_witness :
    (bind_loop [⟨-1, 0, 0⟩, ⟨3, 0, -1⟩, ⟨3, 0, 0⟩, ⟨4, -1, 0⟩] 0).2 = .selected 2 3 ∧
    socket_positions (bind_loop [⟨-1, 0, 0⟩, ⟨3, 0, -1⟩, ⟨3, 0, 0⟩, ⟨4, -1, 0⟩] 0).1 =
      List.range (2 + 1) :=
  have h := bind_loop_first_bindable [⟨-1, 0, 0⟩, ⟨3, 0, -1⟩, ⟨3, 0, 0⟩, ⟨4, -1, 0⟩]
    (by decide)
  ⟨by decide, (h.2.1 2 3 (by decide)).1⟩

/-! ## The bind loop: descriptors -/

/-- The descriptors open when the loop is left, from an empty table. -/
theorem bind_loop_open_fds (cs : List Candidate) (i : Nat) :
    (∀ p fd, (bind_loop cs i).2 = .selected p fd → open_fds [] (bind_loop cs i).1 = [fd]) ∧
    ((bind_loop cs i).2 = .null → open_fds [] (bind_loop cs i).1 = []) ∧
    (∀ fd, (bind_loop cs i).2 = .fatal fd → open_fds [] (bind_loop cs i).1 = [fd]) := by
  induction cs generalizing i with
  | nil => simp [bind_loop]
  | cons c rest ih =>
    rcases bind_loop_cases c with h₁ | ⟨h₁, h₂⟩ | ⟨h₁, h₂, h₃⟩ | ⟨h₁, h₂, h₃⟩
    · rw [bind_loop_socket_failed c rest i h₁]
      simpa [fd_step] using ih (i + 1)
    · rw [bind_loop_setsockopt_failed c rest i h₁ h₂]
      simp [fd_step, h₁]
    · rw [bind_loop_bind_failed c rest i h₁ h₂ h₃]
      simpa [fd_step, h₁] using ih (i + 1)
    · rw [bind_loop_bound c rest i h₁ h₂ h₃]
      simp [fd_step, h₁]

/-- A `bind` that returned `-1` is followed at once by the `close` of its
descriptor. -/
theorem bind_loop_close_follows (cs : List Candidate) (i n : Nat) (fd : Int) (j : Nat)
    (h : (bind_loop cs i).1[n]? = some (Effect.bind fd j (-1))) :
    (bind_loop cs i).1[n + 1]? = some (Effect.close fd) := by
  induction cs generalizing i n with
  | nil => simp [bind_loop] at h
  | cons c rest ih =>
    rcases bind_loop_cases c with h₁ | ⟨h₁, h₂⟩ | ⟨h₁, h₂, h₃⟩ | ⟨h₁, h₂, h₃⟩
    · rw [bind_loop_socket_failed c rest i h₁] at h ⊢
      rcases n with _ | _ | n
      · simp at h
      · simp at h
      · simpa using ih (i + 1) n (by simpa using h)
    · rw [bind_loop_setsockopt_failed c rest i h₁ h₂] at h
      rcases n with _ | _ | _ | n <;> simp at h
    · rw [bind_loop_bind_failed c rest i h₁ h₂ h₃] at h ⊢
      rcases n with _ | _ | _ | _ | _ | n
      · simp at h
      · simp at h
      · simp at h
        simp [h.1]
      · simp at h
      · simp at h
      · simpa using ih (i + 1) n (by simpa using h)
    · rw [bind_loop_bound c rest i h₁ h₂ h₃] at h
      rcases n with _ | _ | _ | n
      · simp at h
      · simp at h
      · simp at h
        exact absurd h.2.2 h₃
      · simp at h

/-- Every `close` comes right after a `bind` on the same descriptor that
returned `-1`; in particular the first call is never a `close`. -/
theorem bind_loop_close_preceded (cs : List Candidate) (i n : Nat) (fd : Int)
    (h : (bind_loop cs i).1[n]? = some (Effect.close fd)) :
    ∃ m j, n = m + 1 ∧ (bind_loop cs i).1[m]? = some (Effect.bind fd j (-1)) := by
  induction cs generalizing i n with
  | nil => simp [bind_loop] at h
  | cons c rest ih =>
    rcases bind_loop_cases c with h₁ | ⟨h₁, h₂⟩ | ⟨h₁, h₂, h₃⟩ | ⟨h₁, h₂, h₃⟩
    · rw [bind_loop_socket_failed c rest i h₁] at h ⊢
      rcases n with _ | _ | n
      · simp at h
      · simp at h
      · obtain ⟨m, j, hn, hm⟩ := ih (i + 1) n (by simpa using h)
        exact ⟨m + 2, j, by omega, by simpa using hm⟩
    · rw [bind_loop_setsockopt_failed c rest i h₁ h₂] at h
      rcases n with _ | _ | _ | n <;> simp at h
    · rw [bind_loop_bind_failed c rest i h₁ h₂ h₃] at h ⊢
      rcases n with _ | _ | _ | _ | _ | n
      · simp at h
      · simp at h
      · simp at h
      · simp at h
        exact ⟨2, i, rfl, by simp [h]⟩
      · simp at h
      · obtain ⟨m, j, hn, hm⟩ := ih (i + 1) n (by simpa using h)
        exact ⟨m + 5, j, by omega, by simpa using hm⟩
    · rw [bind_loop_bound c rest i h₁ h₂ h₃] at h
      rcases n with _ | _ | _ | n <;> simp at h

/-- No socket is open when `socket` is called for the next node. -/
theorem bind_loop_clean_at_socket (cs : List Candidate) (i n : Nat) (j : Nat) (r : Int)
    (h : (bind_loop cs i).1[n]? = some (Effect.socket j r)) :
    open_fds [] ((bind_loop cs i).1.take n) = [] := by
  induction cs generalizing i n with
  | nil => simp [bind_loop] at h
  | cons c rest ih =>
    rcases bind_loop_cases c with h₁ | ⟨h₁, h₂⟩ | ⟨h₁, h₂, h₃⟩ | ⟨h₁, h₂, h₃⟩
    · rw [bind_loop_socket_failed c rest i h₁] at h ⊢
      rcases n with _ | _ | n
      · simp
      · simp at h
      · simpa [fd_step] using ih (i + 1) n (by simpa using h)
    · rw [bind_loop_setsockopt_failed c rest i h₁ h₂] at h ⊢
      rcases n with _ | _ | _ | n
      · simp
      · simp at h
      · simp at h
      · simp at h
    · rw [bind_loop_bind_failed c rest i h₁ h₂ h₃] at h ⊢
      rcases n with _ | _ | _ | _ | _ | n
      · simp
      · simp at h
      · simp at h
      · simp at h
      · simp at h
      · simpa [fd_step, h₁] using ih (i + 1) n (by simpa using h)
    · rw [bind_loop_bound c rest i h₁ h₂ h₃] at h ⊢
      rcases n with _ | _ | _ | n
      · simp
      · simp at h
      · simp at h
      · simp at h

/-- The loop calls `close` as often as `bind` returned `-1`. -/
theorem bind_loop_close_count (cs : List Candidate) (i : Nat) :
    (bind_loop cs i).1.countP is_close = (bind_loop cs i).1.countP is_failed_bind := by
  induction cs generalizing i with
  | nil => simp [bind_loop]
  | cons c rest ih =>
    rcases bind_loop_cases c with h₁ | ⟨h₁, h₂⟩ | ⟨h₁, h₂, h₃⟩ | ⟨h₁, h₂, h₃⟩
    · rw [bind_loop_socket_failed c rest i h₁]
      simpa [List.countP_cons, is_close, is_failed_bind] using ih (i + 1)
    · rw [bind_loop_setsockopt_failed c rest i h₁ h₂]
      simp [List.countP_cons, is_close, is_failed_bind]
    · rw [bind_loop_bind_failed c rest i h₁ h₂ h₃]
      simpa [List.countP_cons, is_close, is_failed_bind] using ih (i + 1)
    · rw [bind_loop_bound c rest i h₁ h₂ h₃]
      simp [List.countP_cons, is_close, is_failed_bind, h₃]

/-- C7: in the bind loop every socket whose `bind` returned `-1` is closed
exactly once, at once after that `bind` and so before the next node is
tried: each failed `bind` is followed immediately by the `close` of its
descriptor, each `close` follows such a `bind`, there are as many closes as
failed binds, and no socket is open whenever `socket` is called.  On leaving
the loop by `break` the open sockets are exactly `servsockfd`; on leaving it
with the list used up none is open. -/
theorem bind_loop_no_leak (cs : List Candidate) :
    (∀ n fd j, (bind_loop cs 0).1[n]? = some (Effect.bind fd j (-1)) →
      (bind_loop cs 0).1[n + 1]? = some (Effect.close fd)) ∧
    (∀ n fd, (bind_loop cs 0).1[n]? = some (Effect.close fd) →
      ∃ m j, n = m + 1 ∧ (bind_loop cs 0).1[m]? = some (Effect.bind fd j (-1))) ∧
    (bind_loop cs 0).1.countP is_close = (bind_loop cs 0).1.countP is_failed_bind ∧
    (∀ n j r, (bind_loop cs 0).1[n]? = some (Effect.socket j r) →
      open_fds [] ((bind_loop cs 0).1.take n) = []) ∧
    (∀ p servsockfd, (bind_loop cs 0).2 = .selected p servsockfd →
      open_fds [] (bind_loop cs 0).1 = [servsockfd]) ∧
    ((bind_loop cs 0).2 = .null → open_fds [] (bind_loop cs 0).1 = []) :=
  ⟨fun n fd j h => bind_loop_close_follows cs 0 n fd j h,
   fun n fd h => bind_loop_close_preceded cs 0 n fd h,
   bind_loop_close_count cs 0,
   fun n j r h => bind_loop_clean_at_socket cs 0 n j r h,
   (bind_loop_open_fds cs 0).1,
   (bind_loop_open_fds cs 0).2.1⟩

/-- Witness for `bind_loop_no_leak`: the sockets of nodes 0 and 1 (both on
descriptor 3) fail to bind and are closed; node 2 is bound on descriptor 3. -/
theorem bind_loop_no_leak_witness :
    (bind_loop [⟨3, 0, -1⟩, ⟨3, 0, -1⟩, ⟨3, 0, 0⟩] 0).2 = .selected 2 3 ∧
    open_fds [] (bind_loop [⟨3, 0, -1⟩, ⟨3, 0, -1⟩, ⟨3, 0, 0⟩] 0).1 = [3] ∧
    (bind_loop [⟨3, 0, -1⟩, ⟨3, 0, -1⟩, ⟨3, 0, 0⟩] 0).1.countP is_close = 2 :=
  have h := bind_loop_no_leak [⟨3, 0, -1⟩, ⟨3, 0, -1⟩, ⟨3, 0, 0⟩]
  ⟨by decide, h.2.2.2.2.1 2 3 (by decide), by decide⟩

/-! ## Startup -/

theorem startup_gai_failed (env : Env) (h : env.gaiRet ≠ 0) :
    startup env =
      ([Effect.getaddrinfo PORT env.gaiRet, Effect.fprintf_stderr "getaddrinfo: %s\n"],
        .returned 1) := by
  simp [startup, h]

theorem startup_fatal (env : Env) (fd : Int) (h : env.gaiRet = 0)
    (hl : (bind_loop env.servinfo 0).2 = .fatal fd) :
    startup env =
      (Effect.getaddrinfo PORT env.gaiRet :: (bind_loop env.servinfo 0).1, .exited 1) := by
  simp [startup, h, hl]

theorem startup_null (env : Env) (h : env.gaiRet = 0)
    (hl : (bind_loop env.servinfo 0).2 = .null) :
    startup env =
      (Effect.getaddrinfo PORT env.gaiRet :: (bind_loop env.servinfo 0).1 ++
        [Effect.freeaddrinfo, Effect.fprintf_stderr "server: failed to bind\n"],
        .exited 1) := by
  simp [startup, h, hl]

theorem startup_listen_failed (env : Env) (p : Nat) (fd : Int) (h : env.gaiRet = 0)
    (hl : (bind_loop env.servinfo 0).2 = .selected p fd) (h₁ : env.listenRet = -1) :
    startup env =
      (Effect.getaddrinfo PORT env.gaiRet :: (bind_loop env.servinfo 0).1 ++
        [Effect.freeaddrinfo, Effect.listen fd BACKLOG env.listenRet,
         Effect.perror "listen"], .exited 1) := by
  simp [startup, h, hl, h₁]

theorem startup_sigaction_failed (env : Env) (p : Nat) (fd : Int) (h : env.gaiRet = 0)
    (hl : (bind_loop env.servinfo 0).2 = .selected p fd) (h₁ : env.listenRet ≠ -1)
    (h₂ : env.sigactionRet = -1) :
    startup env =
      (Effect.getaddrinfo PORT env.gaiRet :: (bind_loop env.servinfo 0).1 ++
        [Effect.freeaddrinfo, Effect.listen fd BACKLOG env.listenRet,
         Effect.sigaction env.sigactionRet, Effect.perror "sigaction"], .exited 1) := by
  simp [startup, h, hl, h₁, h₂]

theorem startup_serving (env : Env) (p : Nat) (fd : Int) (h : env.gaiRet = 0)
    (hl : (bind_loop env.servinfo 0).2 = .selected p fd) (h₁ : env.listenRet ≠ -1)
    (h₂ : env.sigactionRet ≠ -1) :
    startup env =
      (Effect.getaddrinfo PORT env.gaiRet :: (bind_loop env.servinfo 0).1 ++
        [Effect.freeaddrinfo, Effect.listen fd BACKLOG env.listenRet,
         Effect.sigaction env.sigactionRet,
         Effect.printf "server: waiting for connections...\n"], .serving fd) := by
  simp [startup, h, hl, h₁, h₂]

/-- The six ways `startup` can go. -/
theorem startup_cases (env : Env) :
    env.gaiRet ≠ 0 ∨
    (env.gaiRet = 0 ∧ ∃ fd, (bind_loop env.servinfo 0).2 = .fatal fd) ∨
    (env.gaiRet = 0 ∧ (bind_loop env.servinfo 0).2 = .null) ∨
    (env.gaiRet = 0 ∧ (∃ p fd, (bind_loop env.servinfo 0).2 = .selected p fd) ∧
      env.listenRet = -1) ∨
    (env.gaiRet = 0 ∧ (∃ p fd, (bind_loop env.servinfo 0).2 = .selected p fd) ∧
      env.listenRet ≠ -1 ∧ env.sigactionRet = -1) ∨
    (env.gaiRet = 0 ∧ (∃ p fd, (bind_loop env.servinfo 0).2 = .selected p fd) ∧
      env.listenRet ≠ -1 ∧ env.sigactionRet ≠ -1) := by
  by_cases h : env.gaiRet = 0
  · cases hl : (bind_loop env.servinfo 0).2 with
    | fatal fd => exact Or.inr (Or.inl ⟨h, fd, rfl⟩)
    | null => exact Or.inr (Or.inr (Or.inl ⟨h, rfl⟩))
    | selected p fd =>
      by_cases h₁ : env.listenRet = -1
      · exact Or.inr (Or.inr (Or.inr (Or.inl ⟨h, ⟨p, fd, rfl⟩, h₁⟩)))
      · by_cases h₂ : env.sigactionRet = -1
        · exact Or.inr (Or.inr (Or.inr (Or.inr (Or.inl ⟨h, ⟨p, fd, rfl⟩, h₁, h₂⟩))))
        · exact Or.inr (Or.inr (Or.inr (Or.inr (Or.inr ⟨h, ⟨p, fd, rfl⟩, h₁, h₂⟩))))
  · exact Or.inl h

/-- Nothing before `while(1)` is ended by a signal. -/
theorem startup_not_killed (env : Env) (sig : Signal) : (startup env).2 ≠ .killed sig := by
  rcases startup_cases env with h | ⟨h, fd, hl⟩ | ⟨h, hl⟩ | ⟨h, ⟨p, fd, hl⟩, h₁⟩ |
    ⟨h, ⟨p, fd, hl⟩, h₁, h₂⟩ | ⟨h, ⟨p, fd, hl⟩, h₁, h₂⟩
  · rw [startup_gai_failed env h]
    simp
  · rw [startup_fatal env fd h hl]
    simp
  · rw [startup_null env h hl]
    simp
  · rw [startup_listen_failed env p fd h hl h₁]
    simp
  · rw [startup_sigaction_failed env p fd h hl h₁ h₂]
    simp
  · rw [startup_serving env p fd h hl h₁ h₂]
    simp

/-- The bind loop never calls `accept`. -/
theorem bind_loop_no_accept (cs : List Candidate) (i : Nat) :
    ∀ e ∈ (bind_loop cs i).1, is_accept e = false := by
  induction cs generalizing i with
  | nil => simp [bind_loop]
  | cons c rest ih =>
    rcases bind_loop_cases c with h₁ | ⟨h₁, h₂⟩ | ⟨h₁, h₂, h₃⟩ | ⟨h₁, h₂, h₃⟩
    · rw [bind_loop_socket_failed c rest i h₁]
      simpa [is_accept] using ih (i + 1)
    · rw [bind_loop_setsockopt_failed c rest i h₁ h₂]
      simp [is_accept]
    · rw [bind_loop_bind_failed c rest i h₁ h₂ h₃]
      simpa [is_accept] using ih (i + 1)
    · rw [bind_loop_bound c rest i h₁ h₂ h₃]
      simp [is_accept]

/-- Nothing before `while(1)` calls `accept`. -/
theorem startup_no_accept (env : Env) : ∀ e ∈ (startup env).1, is_accept e = false := by
  have hb := bind_loop_no_accept env.servinfo 0
  rcases startup_cases env with h | ⟨h, fd, hl⟩ | ⟨h, hl⟩ | ⟨h, ⟨p, fd, hl⟩, h₁⟩ |
    ⟨h, ⟨p, fd, hl⟩, h₁, h₂⟩ | ⟨h, ⟨p, fd, hl⟩, h₁, h₂⟩
  · rw [startup_gai_failed env h]
    simp [is_accept]
  · rw [startup_fatal env fd h hl]
    simpa [is_accept] using hb
  · rw [startup_null env h hl]
    intro e he
    simp at he
    rcases he with rfl | he | rfl | rfl
    · rfl
    · exact hb e he
    · rfl
    · rfl
  · rw [startup_listen_failed env p fd h hl h₁]
    intro e he
    simp at he
    rcases he with rfl | he | rfl | rfl | rfl
    · rfl
    · exact hb e he
    · rfl
    · rfl
    · rfl
  · rw [startup_sigaction_failed env p fd h hl h₁ h₂]
    intro e he
    simp at he
    rcases he with rfl | he | rfl | rfl | rfl | rfl
    · rfl
    · exact hb e he
    · rfl
    · rfl
    · rfl
    · rfl
  · rw [startup_serving env p fd h hl h₁ h₂]
    intro e he
    simp at he
    rcases he with rfl | he | rfl | rfl | rfl | rfl
    · rfl
    · exact hb e he
    · rfl
    · rfl
    · rfl
    · rfl

/-- The `setsockopt` calls of `startup` are those of the bind loop. -/
theorem startup_setsockopt_iff (env : Env) (h : env.gaiRet = 0) :
    (∀ e ∈ (startup env).1, is_failed_setsockopt e = false) ↔
      ∀ e ∈ (bind_loop env.servinfo 0).1, is_failed_setsockopt e = false := by
  rcases startup_cases env with h' | ⟨_, fd, hl⟩ | ⟨_, hl⟩ | ⟨_, ⟨p, fd, hl⟩, h₁⟩ |
    ⟨_, ⟨p, fd, hl⟩, h₁, h₂⟩ | ⟨_, ⟨p, fd, hl⟩, h₁, h₂⟩
  · exact absurd h h'
  · rw [startup_fatal env fd h hl]
    simp [is_failed_setsockopt]
  · rw [startup_null env h hl]
    constructor
    · intro H e he
      exact H e (by simp [he])
    · intro H e he
      simp at he
      rcases he with rfl | he | rfl | rfl
      · rfl
      · exact H e he
      · rfl
      · rfl
  · rw [startup_listen_failed env p fd h hl h₁]
    constructor
    · intro H e he
      exact H e (by simp [he])
    · intro H e he
      simp at he
      rcases he with rfl | he | rfl | rfl | rfl
      · rfl
      · exact H e he
      · rfl
      · rfl
      · rfl
  · rw [startup_sigaction_failed env p fd h hl h₁ h₂]
    constructor
    · intro H e he
      exact H e (by simp [he])
    · intro H e he
      simp at he
      rcases he with rfl | he | rfl | rfl | rfl | rfl
      · rfl
      · exact H e he
      · rfl
      · rfl
      · rfl
      · rfl
  · rw [startup_serving env p fd h hl h₁ h₂]
    constructor
    · intro H e he
      exact H e (by simp [he])
    · intro H e he
      simp at he
      rcases he with rfl | he | rfl | rfl | rfl | rfl
      · rfl
      · exact H e he
      · rfl
      · rfl
      · rfl
      · rfl

/-- Each turn of the accept loop begins with `accept` on the listening
descriptor. -/
theorem loop_body_head (servsockfd : Int) (c : Conn) :
    ∃ post, (loop_body servsockfd c).1 = Effect.accept servsockfd c.acceptRet :: post := by
  unfold loop_body
  by_cases h₁ : c.acceptRet = -1
  · simp [h₁]
  · by_cases h₂ : c.forkRet = 0 <;> simp [h₁, h₂]

theorem accept_loop_head (servsockfd : Int) (c : Conn) (rest : List Conn) :
    ∃ post, (accept_loop servsockfd (c :: rest)).1 =
      Effect.accept servsockfd c.acceptRet :: post := by
  obtain ⟨post, hpost⟩ := loop_body_head servsockfd c
  rcases hb : loop_body servsockfd c with ⟨effs, _ | o⟩
  · rw [hb] at hpost
    simp only at hpost
    exact ⟨post ++ (accept_loop servsockfd rest).1, by simp [accept_loop, hb, hpost]⟩
  · rw [hb] at hpost
    simp only at hpost
    exact ⟨post, by simp [accept_loop, hb, hpost]⟩

theorem main_of_serving (env : Env) (fd : Int) (h : (startup env).2 = .serving fd) :
    main env = ((startup env).1 ++ (accept_loop fd env.conns).1,
      (accept_loop fd env.conns).2) := by
  simp [main, h]

theorem main_of_returned (env : Env) (st : Int) (h : (startup env).2 = .returned st) :
    main env = ((startup env).1, .returned st) := by
  simp [main, h]

theorem main_of_exited (env : Env) (st : Int) (h : (startup env).2 = .exited st) :
    main env = ((startup env).1, .exited st) := by
  simp [main, h]

/-- C4: `main` reaches `while(1)` if and only if `getaddrinfo` returns 0, no
`setsockopt` it calls returns `-1`, some node has `socket` and `bind` both
succeeding, and `listen` and `sigaction` do not return `-1`.  In every other
case the process ends with exit status 1 and never calls `accept`; when the
loop is reached, the next call is `accept` on the listening descriptor. -/
theorem startup_reaches_accept_iff (env : Env) :
    ((∃ fd, (startup env).2 = .serving fd) ↔
      env.gaiRet = 0 ∧ (∀ e ∈ (startup env).1, is_failed_setsockopt e = false) ∧
      (∃ c ∈ env.servinfo, c.bindable) ∧ env.listenRet ≠ -1 ∧ env.sigactionRet ≠ -1) ∧
    ((¬ ∃ fd, (startup env).2 = .serving fd) →
      (main env).2.status = some 1 ∧ ∀ e ∈ (main env).1, is_accept e = false) ∧
    (∀ fd, (startup env).2 = .serving fd → ∀ c rest, env.conns = c :: rest →
      ∃ post, (main env).1 = (startup env).1 ++ Effect.accept fd c.acceptRet :: post) := by
  refine ⟨?_, ?_, ?_⟩
  · rcases startup_cases env with h | ⟨h, fd, hl⟩ | ⟨h, hl⟩ | ⟨h, ⟨p, fd, hl⟩, h₁⟩ |
      ⟨h, ⟨p, fd, hl⟩, h₁, h₂⟩ | ⟨h, ⟨p, fd, hl⟩, h₁, h₂⟩
    · constructor
      · rintro ⟨fd, hfd⟩
        rw [startup_gai_failed env h] at hfd
        simp at hfd
      · rintro ⟨h0, _⟩
        exact absurd h0 h
    · constructor
      · rintro ⟨fd', hfd⟩
        rw [startup_fatal env fd h hl] at hfd
        simp at hfd
      · rintro ⟨_, hopt, _⟩
        obtain ⟨e, he, hbad⟩ := (bind_loop_fatal_iff env.servinfo 0).mp ⟨fd, hl⟩
        rw [(startup_setsockopt_iff env h).mp hopt e he] at hbad
        exact absurd hbad Bool.false_ne_true
    · constructor
      · rintro ⟨fd', hfd⟩
        rw [startup_null env h hl] at hfd
        simp at hfd
      · rintro ⟨_, _, ⟨c, hc, hb⟩, _⟩
        exact absurd hb ((bind_loop_null env.servinfo 0 hl).1 c hc)
    · constructor
      · rintro ⟨fd', hfd⟩
        rw [startup_listen_failed env p fd h hl h₁] at hfd
        simp at hfd
      · rintro ⟨_, _, _, hl', _⟩
        exact absurd h₁ hl'
    · constructor
      · rintro ⟨fd', hfd⟩
        rw [startup_sigaction_failed env p fd h hl h₁ h₂] at hfd
        simp at hfd
      · rintro ⟨_, _, _, _, hs⟩
        exact absurd h₂ hs
    · constructor
      · intro _
        refine ⟨h, ?_, ?_, h₁, h₂⟩
        · rw [startup_setsockopt_iff env h]
          intro e he
          cases hv : is_failed_setsockopt e with
          | false => rfl
          | true =>
            obtain ⟨fd', hfd'⟩ := (bind_loop_fatal_iff env.servinfo 0).mpr ⟨e, he, hv⟩
            rw [hl] at hfd'
            simp at hfd'
        · obtain ⟨k, c, _, hk, hb, _⟩ := bind_loop_selected env.servinfo 0 p fd hl
          exact ⟨c, List.getElem?_mem hk, hb⟩
      · intro _
        exact ⟨fd, by rw [startup_serving env p fd h hl h₁ h₂]⟩
  · intro hno
    have hna := startup_no_accept env
    cases hs : (startup env).2 with
    | returned st =>
      rw [main_of_returned env st hs]
      refine ⟨?_, hna⟩
      rcases startup_cases env with h | ⟨h, fd, hl⟩ | ⟨h, hl⟩ | ⟨h, ⟨p, fd, hl⟩, h₁⟩ |
        ⟨h, ⟨p, fd, hl⟩, h₁, h₂⟩ | ⟨h, ⟨p, fd, hl⟩, h₁, h₂⟩
      · rw [startup_gai_failed env h] at hs
        simp at hs
        simp [Outcome.status, hs]
      · rw [startup_fatal env fd h hl] at hs
        simp at hs
      · rw [startup_null env h hl] at hs
        simp at hs
      · rw [startup_listen_failed env p fd h hl h₁] at hs
        simp at hs
      · rw [startup_sigaction_failed env p fd h hl h₁ h₂] at hs
        simp at hs
      · rw [startup_serving env p fd h hl h₁ h₂] at hs
        simp at hs
    | exited st =>
      rw [main_of_exited env st hs]
      refine ⟨?_, hna⟩
      rcases startup_cases env with h | ⟨h, fd, hl⟩ | ⟨h, hl⟩ | ⟨h, ⟨p, fd, hl⟩, h₁⟩ |
        ⟨h, ⟨p, fd, hl⟩, h₁, h₂⟩ | ⟨h, ⟨p, fd, hl⟩, h₁, h₂⟩
      · rw [startup_gai_failed env h] at hs
        simp at hs
      · rw [startup_fatal env fd h hl] at hs
        simp at hs
        simp [Outcome.status, hs]
      · rw [startup_null env h hl] at hs
        simp at hs
        simp [Outcome.status, hs]
      · rw [startup_listen_failed env p fd h hl h₁] at hs
        simp at hs
        simp [Outcome.status, hs]
      · rw [startup_sigaction_failed env p fd h hl h₁ h₂] at hs
        simp at hs
        simp [Outcome.status, hs]
      · rw [startup_serving env p fd h hl h₁ h₂] at hs
        simp at hs
    | killed sig => exact absurd hs (startup_not_killed env sig)
    | serving fd => exact absurd ⟨fd, hs⟩ hno
  · intro fd hs c rest hconns
    obtain ⟨post, hpost⟩ := accept_loop_head fd c rest
    rw [main_of_serving env fd hs, hconns]
    exact ⟨post, by simp [hpost]⟩

/-- Witness for `startup_reaches_accept_iff`: one bindable node on
descriptor 3, `listen` and `sigaction` succeed, so the loop is reached and
`accept` is called on descriptor 3. -/
theorem startup_reaches_accept_iff_witness :
    (∃ fd, (startup ⟨0, [⟨3, 0, 0⟩], 0, 0, [⟨4, [], 1234, .returned 13⟩]⟩).2 = .serving fd) ∧
    ∃ post, (main ⟨0, [⟨3, 0, 0⟩], 0, 0, [⟨4, [], 1234, .returned 13⟩]⟩).1 =
      (startup ⟨0, [⟨3, 0, 0⟩], 0, 0, [⟨4, [], 1234, .returned 13⟩]⟩).1 ++ Effect.accept 3 4 :: post :=
  have h := startup_reaches_accept_iff ⟨0, [⟨3, 0, 0⟩], 0, 0, [⟨4, [], 1234, .returned 13⟩]⟩
  ⟨h.1.mpr ⟨rfl, by decide, by decide, by decide, by decide⟩,
   h.2.2 3 (by decide) ⟨4, [], 1234, .returned 13⟩ [] rfl⟩

/-! ## The accept loop: unfolding -/

theorem loop_body_accept_failed (servsockfd : Int) (c : Conn) (h : c.acceptRet = -1) :
    loop_body servsockfd c =
      ([Effect.accept servsockfd (-1), Effect.perror "accept"], none) := by
  simp [loop_body, h]

theorem worker_returned (servsockfd clisockfd : Int) (c : Conn) (ret : Int)
    (h : c.sendRes = .returned ret) :
    worker servsockfd clisockfd c =
      ([Effect.close servsockfd, Effect.send clisockfd greeting 13 0 (.returned ret)]
        ++ (if ret = -1 then [Effect.perror "send"] else [])
        ++ [Effect.close clisockfd], .exited 0) := by
  simp [worker, h]

theorem worker_sigpipe (servsockfd clisockfd : Int) (c : Conn)
    (h : c.sendRes = .sigpipe) :
    worker servsockfd clisockfd c =
      ([Effect.close servsockfd, Effect.send clisockfd greeting 13 0 .sigpipe],
        .killed .SIGPIPE) := by
  simp [worker, h]

/-- The worker ends in `exit(0)` or is ended by `SIGPIPE`. -/
theorem worker_outcome (servsockfd clisockfd : Int) (c : Conn) :
    (worker servsockfd clisockfd c).2 = .exited 0 ∨
      (worker servsockfd clisockfd c).2 = .killed .SIGPIPE := by
  cases hs : c.sendRes with
  | returned ret => exact Or.inl (by rw [worker_returned servsockfd clisockfd c ret hs])
  | sigpipe => exact Or.inr (by rw [worker_sigpipe servsockfd clisockfd c hs])

theorem loop_body_child (servsockfd : Int) (c : Conn) (h₁ : c.acceptRet ≠ -1)
    (h₂ : c.forkRet = 0) :
    loop_body servsockfd c =
      (Effect.accept servsockfd c.acceptRet :: Effect.inet_ntop ::
        Effect.printf "server: got connection from %s\n" :: Effect.fork 0 ::
        (worker servsockfd c.acceptRet c).1, some (worker servsockfd c.acceptRet c).2) := by
  simp [loop_body, h₁, h₂]

theorem loop_body_parent (servsockfd : Int) (c : Conn) (h₁ : c.acceptRet ≠ -1)
    (h₂ : c.forkRet ≠ 0) :
    loop_body servsockfd c =
      ([Effect.accept servsockfd c.acceptRet, Effect.inet_ntop,
        Effect.printf "server: got connection from %s\n", Effect.fork c.forkRet,
        Effect.close c.acceptRet], none) := by
  simp [loop_body, h₁, h₂]

theorem accept_loop_continue (servsockfd : Int) (c : Conn) (rest : List Conn)
    (h : (loop_body servsockfd c).2 = none) :
    accept_loop servsockfd (c :: rest) =
      ((loop_body servsockfd c).1 ++ (accept_loop servsockfd rest).1,
        (accept_loop servsockfd rest).2) := by
  rcases hb : loop_body servsockfd c with ⟨effs, _ | o⟩
  · simp [accept_loop, hb]
  · rw [hb] at h
    simp at h

theorem accept_loop_stop (servsockfd : Int) (c : Conn) (rest : List Conn) (o : Outcome)
    (h : (loop_body servsockfd c).2 = some o) :
    accept_loop servsockfd (c :: rest) = ((loop_body servsockfd c).1, o) := by
  rcases hb : loop_body servsockfd c with ⟨effs, _ | o'⟩
  · rw [hb] at h
    simp at h
  · rw [hb] at h
    simp at h
    simp [accept_loop, hb, h]

/-- The three ways one turn of the accept loop can go. -/
theorem loop_body_cases (c : Conn) :
    c.acceptRet = -1 ∨ (c.acceptRet ≠ -1 ∧ c.forkRet = 0) ∨
      (c.acceptRet ≠ -1 ∧ c.forkRet ≠ 0) := by
  by_cases h₁ : c.acceptRet = -1
  · exact Or.inl h₁
  · by_cases h₂ : c.forkRet = 0
    · exact Or.inr (Or.inl ⟨h₁, h₂⟩)
    · exact Or.inr (Or.inr ⟨h₁, h₂⟩)

/-- The accept loop is only ever left in the child, through `exit(0)` or
`SIGPIPE`. -/
theorem accept_loop_outcome (servsockfd : Int) (conns : List Conn) :
    (accept_loop servsockfd conns).2 = .exited 0 ∨
      (accept_loop servsockfd conns).2 = .killed .SIGPIPE ∨
      (accept_loop servsockfd conns).2 = .serving servsockfd := by
  induction conns with
  | nil => simp [accept_loop]
  | cons c rest ih =>
    rcases loop_body_cases c with h₁ | ⟨h₁, h₂⟩ | ⟨h₁, h₂⟩
    · rw [accept_loop_continue servsockfd c rest
        (by rw [loop_body_accept_failed servsockfd c h₁])]
      exact ih
    · rw [accept_loop_stop servsockfd c rest (worker servsockfd c.acceptRet c).2
        (by rw [loop_body_child servsockfd c h₁ h₂])]
      rcases worker_outcome servsockfd c.acceptRet c with hw | hw
      · exact Or.inl hw
      · exact Or.inr (Or.inl hw)
    · rw [accept_loop_continue servsockfd c rest
        (by rw [loop_body_parent servsockfd c h₁ h₂])]
      exact ih

/-! ## Setup failures and open descriptors -/

/-- C6, as stated, fails: after a `setsockopt` failure, a `listen` failure and
a `sigaction` failure the process calls `exit(1)` with descriptor 3 still
open. -/
theorem setup_failure_leaves_socket_open :
    ((main ⟨0, [⟨3, -1, 0⟩], 0, 0, []⟩).2 = .exited 1 ∧
      open_fds [] (main ⟨0, [⟨3, -1, 0⟩], 0, 0, []⟩).1 = [3]) ∧
    ((main ⟨0, [⟨3, 0, 0⟩], -1, 0, []⟩).2 = .exited 1 ∧
      open_fds [] (main ⟨0, [⟨3, 0, 0⟩], -1, 0, []⟩).1 = [3]) ∧
    ((main ⟨0, [⟨3, 0, 0⟩], 0, -1, []⟩).2 = .exited 1 ∧
      open_fds [] (main ⟨0, [⟨3, 0, 0⟩], 0, -1, []⟩).1 = [3]) := by
  decide

/-- C6, amended: when `main` ends in `exit(1)`, the sockets created for all
nodes but the last one tried have been closed.  On the path taken because no
node could be bound no socket is open at `exit(1)`; on the paths taken
because `setsockopt`, `listen` or `sigaction` returned `-1` exactly one
socket, `servsockfd`, is still open at `exit(1)`. -/
theorem setup_failure_open_fds (env : Env) (hexit : (main env).2 = .exited 1) :
    ((bind_loop env.servinfo 0).2 = .null → open_fds [] (main env).1 = []) ∧
    (∀ servsockfd, (bind_loop env.servinfo 0).2 = .fatal servsockfd →
      open_fds [] (main env).1 = [servsockfd]) ∧
    (∀ p servsockfd, (bind_loop env.servinfo 0).2 = .selected p servsockfd →
      (env.listenRet = -1 ∨ env.sigactionRet = -1) ∧
      open_fds [] (main env).1 = [servsockfd]) ∧
    (open_fds [] (main env).1).length ≤ 1 := by
  have hstart : (startup env).2 = .exited 1 := by
    cases hs : (startup env).2 with
    | returned st =>
      rw [main_of_returned env st hs] at hexit
      simp at hexit
    | exited st =>
      rw [main_of_exited env st hs] at hexit
      simpa using hexit
    | killed sig => exact absurd hs (startup_not_killed env sig)
    | serving fd =>
      rw [main_of_serving env fd hs] at hexit
      rcases accept_loop_outcome fd env.conns with h | h | h <;>
        · rw [h] at hexit
          simp at hexit
  rw [main_of_exited env 1 hstart]
  have hfds := bind_loop_open_fds env.servinfo 0
  rcases startup_cases env with h | ⟨h, fd, hl⟩ | ⟨h, hl⟩ | ⟨h, ⟨p, fd, hl⟩, h₁⟩ |
    ⟨h, ⟨p, fd, hl⟩, h₁, h₂⟩ | ⟨h, ⟨p, fd, hl⟩, h₁, h₂⟩
  · rw [startup_gai_failed env h] at hstart
    simp at hstart
  · rw [startup_fatal env fd h hl]
    simp [hl, fd_step, hfds.2.2 fd hl]
  · rw [startup_null env h hl]
    simp [hl, fd_step, open_fds_append, hfds.2.1 hl]
  · rw [startup_listen_failed env p fd h hl h₁]
    simp [hl, fd_step, open_fds_append, hfds.1 p fd hl, h₁]
  · rw [startup_sigaction_failed env p fd h hl h₁ h₂]
    simp [hl, fd_step, open_fds_append, hfds.1 p fd hl, h₂]
  · rw [startup_serving env p fd h hl h₁ h₂] at hstart
    simp at hstart

/-- Witness for `setup_failure_open_fds`: the socket of node 0 (descriptor 3)
fails to bind and is closed, `socket` fails for node 1; `exit(1)` with no
socket open. -/
theorem setup_failure_open_fds_witness :
    (main ⟨0, [⟨3, 0, -1⟩, ⟨-1, 0, 0⟩], 0, 0, []⟩).2 = .exited 1 ∧
    open_fds [] (main ⟨0, [⟨3, 0, -1⟩, ⟨-1, 0, 0⟩], 0, 0, []⟩).1 = [] :=
  have h := setup_failure_open_fds ⟨0, [⟨3, 0, -1⟩, ⟨-1, 0, 0⟩], 0, 0, []⟩ (by decide)
  ⟨by decide, h.1 (by decide)⟩

/-! ## The accept loop: a failed `accept` -/

/-- While the process stays in the loop, the calls of the turns simply follow
one another. -/
theorem accept_loop_append (servsockfd : Int) (pre rest : List Conn)
    (h : (accept_loop servsockfd pre).2 = .serving servsockfd) :
    accept_loop servsockfd (pre ++ rest) =
      ((accept_loop servsockfd pre).1 ++ (accept_loop servsockfd rest).1,
        (accept_loop servsockfd rest).2) := by
  induction pre with
  | nil => simp [accept_loop]
  | cons c pre ih =>
    rcases loop_body_cases c with h₁ | ⟨h₁, h₂⟩ | ⟨h₁, h₂⟩
    · have hc : (loop_body servsockfd c).2 = none := by
        rw [loop_body_accept_failed servsockfd c h₁]
      rw [accept_loop_continue servsockfd c pre hc] at h ⊢
      rw [List.cons_append, accept_loop_continue servsockfd c (pre ++ rest) hc, ih h]
      simp
    · rw [accept_loop_stop servsockfd c pre (worker servsockfd c.acceptRet c).2
        (by rw [loop_body_child servsockfd c h₁ h₂])] at h
      rcases worker_outcome servsockfd c.acceptRet c with hw | hw <;>
        · rw [hw] at h
          simp at h
    · have hc : (loop_body servsockfd c).2 = none := by
        rw [loop_body_parent servsockfd c h₁ h₂]
      rw [accept_loop_continue servsockfd c pre hc] at h ⊢
      rw [List.cons_append, accept_loop_continue servsockfd c (pre ++ rest) hc, ih h]
      simp

/-- C5: a turn in which `accept` returns `-1` consists of that `accept` and a
`perror("accept")` only (no `fork`, no `send`, no `close`), leaves every open
descriptor open and does not end the process; the loop goes on to call
`accept` on the same listening descriptor, and the turns that follow make
exactly the calls, with exactly the outcome, they make when the failed turn
is left out, wherever in the sequence of turns the failure occurs. -/
theorem accept_failure_not_fatal (servsockfd : Int) (c : Conn) (hfail : c.acceptRet = -1) :
    (loop_body servsockfd c).1 = [Effect.accept servsockfd (-1), Effect.perror "accept"] ∧
    (loop_body servsockfd c).2 = none ∧
    (∀ fds, open_fds fds (loop_body servsockfd c).1 = fds) ∧
    (∀ rest, accept_loop servsockfd (c :: rest) =
      ([Effect.accept servsockfd (-1), Effect.perror "accept"] ++
        (accept_loop servsockfd rest).1, (accept_loop servsockfd rest).2)) ∧
    (∀ c' rest, ∃ post, (accept_loop servsockfd (c :: c' :: rest)).1 =
      [Effect.accept servsockfd (-1), Effect.perror "accept",
       Effect.accept servsockfd c'.acceptRet] ++ post) ∧
    (∀ pre rest, (accept_loop servsockfd pre).2 = .serving servsockfd →
      accept_loop servsockfd (pre ++ rest) =
        ((accept_loop servsockfd pre).1 ++ (accept_loop servsockfd rest).1,
          (accept_loop servsockfd rest).2) ∧
      accept_loop servsockfd (pre ++ c :: rest) =
        ((accept_loop servsockfd pre).1 ++
          [Effect.accept servsockfd (-1), Effect.perror "accept"] ++
          (accept_loop servsockfd rest).1, (accept_loop servsockfd rest).2)) := by
  have hb := loop_body_accept_failed servsockfd c hfail
  have hcont : ∀ rest, accept_loop servsockfd (c :: rest) =
      ([Effect.accept servsockfd (-1), Effect.perror "accept"] ++
        (accept_loop servsockfd rest).1, (accept_loop servsockfd rest).2) := by
    intro rest
    rw [accept_loop_continue servsockfd c rest (by rw [hb]), hb]
  refine ⟨by rw [hb], by rw [hb], ?_, hcont, ?_, ?_⟩
  · intro fds
    rw [hb]
    simp [fd_step]
  · intro c' rest
    obtain ⟨post, hpost⟩ := accept_loop_head servsockfd c' rest
    exact ⟨post, by rw [hcont, hpost]; simp⟩
  · intro pre rest hpre
    refine ⟨accept_loop_append servsockfd pre rest hpre, ?_⟩
    rw [accept_loop_append servsockfd pre (c :: rest) hpre, hcont]
    simp

/-- Witness for `accept_failure_not_fatal`: a failed `accept` between two
served connections. -/
theorem accept_failure_not_fatal_witness :
    accept_loop 3 ([⟨4, [], 1234, .returned 13⟩] ++ ⟨-1, [], 0, .returned 0⟩ :: [⟨4, [], 1235, .returned 13⟩]) =
      ((accept_loop 3 [⟨4, [], 1234, .returned 13⟩]).1 ++
        [Effect.accept 3 (-1), Effect.perror "accept"] ++
        (accept_loop 3 [⟨4, [], 1235, .returned 13⟩]).1, (accept_loop 3 [⟨4, [], 1235, .returned 13⟩]).2) :=
  ((accept_failure_not_fatal 3 ⟨-1, [], 0, .returned 0⟩ rfl).2.2.2.2.2
    [⟨4, [], 1234, .returned 13⟩] [⟨4, [], 1235, .returned 13⟩] (by decide)).2

/-! ## The accept loop: the parent -/

/-- In the parent, a whole number of turns leaves the table at `servsockfd`
alone and the process in the loop. -/
theorem parent_turns (servsockfd : Int) (conns : List Conn)
    (hparent : ∀ c ∈ conns, c.acceptRet ≠ -1 → c.forkRet ≠ 0)
    (hfresh : ∀ c ∈ conns, c.acceptRet ≠ servsockfd) :
    open_fds [servsockfd] (accept_loop servsockfd conns).1 = [servsockfd] ∧
    (accept_loop servsockfd conns).2 = .serving servsockfd ∧
    (∀ e ∈ (accept_loop servsockfd conns).1, e ≠ Effect.close servsockfd) ∧
    (accept_loop servsockfd conns).1.countP is_close =
      conns.countP (fun c => decide (c.acceptRet ≠ -1)) := by
  induction conns with
  | nil => simp [accept_loop]
  | cons c rest ih =>
    have hne : c.acceptRet ≠ servsockfd := hfresh c (by simp)
    obtain ⟨ih₁, ih₂, ih₃, ih₄⟩ := ih (fun x hx => hparent x (by simp [hx]))
      (fun x hx => hfresh x (by simp [hx]))
    by_cases h₁ : c.acceptRet = -1
    · have hb := loop_body_accept_failed servsockfd c h₁
      rw [accept_loop_continue servsockfd c rest (by rw [hb]), hb]
      refine ⟨by simpa [fd_step] using ih₁, ih₂, ?_, ?_⟩
      · intro e he
        simp at he
        rcases he with rfl | rfl | he
        · simp
        · simp
        · exact ih₃ e he
      · simp [List.countP_cons, is_close, h₁, ih₄]
    · have hb := loop_body_parent servsockfd c h₁ (hparent c (by simp) h₁)
      rw [accept_loop_continue servsockfd c rest (by rw [hb]), hb]
      refine ⟨?_, ih₂, ?_, ?_⟩
      · have hne' : servsockfd ≠ c.acceptRet := fun h => hne h.symm
        simpa [fd_step, h₁, hne', open_fds_append] using ih₁
      · intro e he
        simp at he
        rcases he with rfl | rfl | rfl | rfl | rfl | he
        · simp
        · simp
        · simp
        · simp
        · simpa using hne
        · exact ih₃ e he
      · simp [List.countP_cons, is_close, h₁, ih₄]

/-- C8: in the parent (every `fork` it calls returns non-zero there), with `accept`
returning descriptors other than the open listening one, after any number of
turns the open socket descriptors are exactly `servsockfd` and the process is
still in the loop; a turn whose `accept` succeeded closes the client
descriptor exactly once and closes nothing else, a turn whose `accept` failed
closes nothing, and the listening descriptor is never closed. -/
theorem parent_keeps_only_listener (servsockfd : Int) (conns : List Conn)
    (hparent : ∀ c ∈ conns, c.acceptRet ≠ -1 → c.forkRet ≠ 0)
    (hfresh : ∀ c ∈ conns, c.acceptRet ≠ servsockfd) :
    (∀ n, open_fds [servsockfd] (accept_loop servsockfd (conns.take n)).1 = [servsockfd] ∧
      (accept_loop servsockfd (conns.take n)).2 = .serving servsockfd ∧
      (accept_loop servsockfd conns).1 =
        (accept_loop servsockfd (conns.take n)).1 ++
          (accept_loop servsockfd (conns.drop n)).1) ∧
    (∀ c ∈ conns, c.acceptRet ≠ -1 →
      (loop_body servsockfd c).1.filter is_close = [Effect.close c.acceptRet] ∧
      open_fds [servsockfd] (loop_body servsockfd c).1 = [servsockfd]) ∧
    (∀ c ∈ conns, c.acceptRet = -1 →
      (loop_body servsockfd c).1.filter is_close = [] ∧
      open_fds [servsockfd] (loop_body servsockfd c).1 = [servsockfd]) ∧
    (∀ e ∈ (accept_loop servsockfd conns).1, e ≠ Effect.close servsockfd) ∧
    (accept_loop servsockfd conns).1.countP is_close =
      conns.countP (fun c => decide (c.acceptRet ≠ -1)) := by
  have hall := parent_turns servsockfd conns hparent hfresh
  refine ⟨?_, ?_, ?_, hall.2.2.1, hall.2.2.2⟩
  · intro n
    have htake := parent_turns servsockfd (conns.take n)
      (fun c hc => hparent c (List.mem_of_mem_take hc))
      (fun c hc => hfresh c (List.mem_of_mem_take hc))
    refine ⟨htake.1, htake.2.1, ?_⟩
    have happ := accept_loop_append servsockfd (conns.take n) (conns.drop n) htake.2.1
    rw [List.take_append_drop] at happ
    rw [happ]
  · intro c hc h₁
    have hne : servsockfd ≠ c.acceptRet := fun h => hfresh c hc h.symm
    rw [loop_body_parent servsockfd c h₁ (hparent c hc h₁)]
    simp [is_close, fd_step, h₁, hne]
  · intro c _ h₁
    rw [loop_body_accept_failed servsockfd c h₁]
    simp [is_close, fd_step]

/-- Witness for `parent_keeps_only_listener`: three turns on listening
descriptor 3, the second with a failed `accept`, the third with a failed
`fork`. -/
theorem parent_keeps_only_listener_witness :
    open_fds [3] (accept_loop 3
      ([⟨4, [], 1234, .returned 13⟩, ⟨-1, [], 0, .returned 0⟩, ⟨4, [], -1, .returned 0⟩].take 3)).1 = [3] :=
  ((parent_keeps_only_listener 3 [⟨4, [], 1234, .returned 13⟩, ⟨-1, [], 0, .returned 0⟩, ⟨4, [], -1, .returned 0⟩]
    (by decide) (by decide)).1 3).1

/-! ## One worker per connection -/

/-- C2, as stated, fails: when `accept` returns descriptor 4 and `fork`
returns `-1`, the only process is the caller, which closes descriptor 4
without sending; no worker runs. -/
theorem fork_failure_no_worker :
    (4 : Int) ≠ -1 ∧
    turn_runs 3 ⟨4, [], -1, .returned 13⟩ =
      [([Effect.accept 3 4, Effect.inet_ntop,
         Effect.printf "server: got connection from %s\n", Effect.fork (-1),
         Effect.close 4], none)] ∧
    ((turn_runs 3 ⟨4, [], -1, .returned 13⟩).filter (fun r => r.1.any is_send)).length = 0 := by
  decide

/-- The worker sends exactly once, the literal with length 13 and flags 0, on
the client descriptor. -/
theorem worker_sends_once (servsockfd clisockfd : Int) (c : Conn) :
    (worker servsockfd clisockfd c).1.filter is_send =
      [Effect.send clisockfd "Hello, world!" 13 0 c.sendRes] := by
  cases hs : c.sendRes with
  | returned ret =>
    rw [worker_returned servsockfd clisockfd c ret hs]
    by_cases hr : ret = -1 <;> simp [is_send, hr, greeting, List.filter_cons]
  | sigpipe =>
    rw [worker_sigpipe servsockfd clisockfd c hs]
    simp [is_send, greeting, List.filter_cons]

/-- C2, amended: in every turn in which `accept` succeeds and `fork` does not
fail (it returns 0, in the child, or a positive pid, in the parent), exactly
one of the processes coming out of the turn sends anything: the one in which
`fork` returned 0.  It holds the client descriptor and makes the worker's
calls, with a single `send` of the 13 bytes of "Hello, world!" on the client
descriptor; when that `send` returns it ends with `exit(0)`. -/
theorem one_worker_per_connection (servsockfd : Int) (c : Conn)
    (hacc : c.acceptRet ≠ -1) (hfork : c.forkRet = 0 ∨ c.forkRet > 0) :
    (turn_runs servsockfd c).filter (fun r => r.1.any is_send) =
      [loop_body servsockfd { c with forkRet := 0 }] ∧
    (∀ ret, c.sendRes = .returned ret →
      (loop_body servsockfd { c with forkRet := 0 }).2 = some (.exited 0)) ∧
    (loop_body servsockfd { c with forkRet := 0 }).1.drop 4 =
      (worker servsockfd c.acceptRet c).1 ∧
    (loop_body servsockfd { c with forkRet := 0 }).1.filter is_send =
      [Effect.send c.acceptRet "Hello, world!" 13 0 c.sendRes] ∧
    c.acceptRet ∈ open_fds [servsockfd]
      ((loop_body servsockfd { c with forkRet := 0 }).1.take 4) ∧
    payload greeting 13 = greeting.toList ∧ greeting.length = 13 := by
  have hpay : payload greeting 13 = greeting.toList := by decide
  have hlen : greeting.length = 13 := by decide
  have hw : worker servsockfd c.acceptRet { c with forkRet := 0 } =
      worker servsockfd c.acceptRet c := rfl
  have hchild : loop_body servsockfd { c with forkRet := 0 } =
      (Effect.accept servsockfd c.acceptRet :: Effect.inet_ntop ::
        Effect.printf "server: got connection from %s\n" :: Effect.fork 0 ::
        (worker servsockfd c.acceptRet c).1, some (worker servsockfd c.acceptRet c).2) := by
    rw [← hw]
    exact loop_body_child servsockfd { c with forkRet := 0 } hacc rfl
  have hfilter : (loop_body servsockfd { c with forkRet := 0 }).1.filter is_send =
      [Effect.send c.acceptRet "Hello, world!" 13 0 c.sendRes] := by
    rw [hchild]
    simp [List.filter_cons, is_send, worker_sends_once]
  have hsend : (loop_body servsockfd { c with forkRet := 0 }).1.any is_send = true := by
    rw [List.any_eq_true]
    have hmem : Effect.send c.acceptRet "Hello, world!" 13 0 c.sendRes ∈
        (loop_body servsockfd { c with forkRet := 0 }).1.filter is_send := by
      rw [hfilter]
      simp
    exact ⟨_, (List.mem_filter.mp hmem).1, (List.mem_filter.mp hmem).2⟩
  refine ⟨?_, ?_, by rw [hchild]; simp, hfilter, ?_, hpay, hlen⟩
  · rcases hfork with h0 | hpos
    · have hc : ({ c with forkRet := 0 } : Conn) = c := by
        cases c
        simp at h0
        simp [h0]
      have hno : ¬ (c.acceptRet ≠ -1 ∧ c.forkRet > 0) := by
        rw [h0]
        simp
      rw [hc] at hsend ⊢
      unfold turn_runs
      rw [if_neg hno]
      simp [List.filter_cons, hsend]
    · have hne : c.forkRet ≠ 0 := by omega
      have hyes : c.acceptRet ≠ -1 ∧ c.forkRet > 0 := ⟨hacc, hpos⟩
      have hparent : (loop_body servsockfd c).1.any is_send = false := by
        rw [loop_body_parent servsockfd c hacc hne]
        simp [is_send]
      unfold turn_runs
      rw [if_pos hyes]
      simp [List.filter_cons, hsend, hparent]
  · intro ret hret
    rw [hchild, worker_returned servsockfd c.acceptRet c ret hret]
  · rw [hchild]
    simp [fd_step, hacc]

/-- Witness for `one_worker_per_connection`: `accept` returns 4 and `fork`
returns pid 1234 in the parent; the child is the one worker. -/
theorem one_worker_per_connection_witness :
    (turn_runs 3 ⟨4, [], 1234, .returned 13⟩).filter (fun r => r.1.any is_send) =
      [loop_body 3 { (⟨4, [], 1234, .returned 13⟩ : Conn) with forkRet := 0 }] :=
  (one_worker_per_connection 3 ⟨4, [], 1234, .returned 13⟩ (by decide)
    (Or.inr (by decide))).1

/-! ## The client's bytes -/

theorem loop_body_answers (servsockfd : Int) (c₁ c₂ : Conn) (h : c₁.answers = c₂.answers) :
    loop_body servsockfd c₁ = loop_body servsockfd c₂ := by
  simp only [Conn.answers, Prod.mk.injEq] at h
  obtain ⟨ha, hf, hs⟩ := h
  simp [loop_body, worker, ha, hf, hs]

theorem turn_runs_answers (servsockfd : Int) (c₁ c₂ : Conn) (h : c₁.answers = c₂.answers) :
    turn_runs servsockfd c₁ = turn_runs servsockfd c₂ := by
  have hb := loop_body_answers servsockfd c₁ c₂ h
  have hb0 : loop_body servsockfd { c₁ with forkRet := 0 } =
      loop_body servsockfd { c₂ with forkRet := 0 } := by
    apply loop_body_answers
    simp only [Conn.answers, Prod.mk.injEq] at h ⊢
    exact ⟨h.1, trivial, h.2.2⟩
  simp only [Conn.answers, Prod.mk.injEq] at h
  obtain ⟨ha, hf, _⟩ := h
  unfold turn_runs
  rw [hb, hb0, ha, hf]

theorem accept_loop_answers (servsockfd : Int) (conns₁ conns₂ : List Conn)
    (h : conns₁.map Conn.answers = conns₂.map Conn.answers) :
    accept_loop servsockfd conns₁ = accept_loop servsockfd conns₂ := by
  induction conns₁ generalizing conns₂ with
  | nil =>
    cases conns₂ with
    | nil => rfl
    | cons c rest => simp at h
  | cons c₁ rest₁ ih =>
    cases conns₂ with
    | nil => simp at h
    | cons c₂ rest₂ =>
      simp only [List.map_cons, List.cons.injEq] at h
      simp [accept_loop, loop_body_answers servsockfd c₁ c₂ h.1, ih rest₂ h.2]

theorem startup_answers (env₁ env₂ : Env) (h : env₁.answers = env₂.answers) :
    startup env₁ = startup env₂ := by
  simp only [Env.answers, Prod.mk.injEq] at h
  obtain ⟨⟨hg, hsv, hl, hsa⟩, _⟩ := h
  simp [startup, hg, hsv, hl, hsa]

theorem main_answers (env₁ env₂ : Env) (h : env₁.answers = env₂.answers) :
    main env₁ = main env₂ := by
  have hs := startup_answers env₁ env₂ h
  simp only [Env.answers, Prod.mk.injEq] at h
  have hc := h.2
  cases ho : (startup env₂).2 with
  | returned st =>
    rw [main_of_returned env₂ st ho, main_of_returned env₁ st (by rw [hs, ho]), hs]
  | exited st =>
    rw [main_of_exited env₂ st ho, main_of_exited env₁ st (by rw [hs, ho]), hs]
  | killed sig => exact absurd ho (startup_not_killed env₂ sig)
  | serving fd =>
    rw [main_of_serving env₂ fd ho, main_of_serving env₁ fd (by rw [hs, ho]), hs,
      accept_loop_answers fd env₁.conns env₂.conns hc]

/-- The bind loop never reads from a descriptor. -/
theorem bind_loop_no_read (cs : List Candidate) (i : Nat) :
    ∀ e ∈ (bind_loop cs i).1, is_read e = false := by
  induction cs generalizing i with
  | nil => simp [bind_loop]
  | cons c rest ih =>
    rcases bind_loop_cases c with h₁ | ⟨h₁, h₂⟩ | ⟨h₁, h₂, h₃⟩ | ⟨h₁, h₂, h₃⟩
    · rw [bind_loop_socket_failed c rest i h₁]
      simpa [is_read] using ih (i + 1)
    · rw [bind_loop_setsockopt_failed c rest i h₁ h₂]
      simp [is_read]
    · rw [bind_loop_bind_failed c rest i h₁ h₂ h₃]
      simpa [is_read] using ih (i + 1)
    · rw [bind_loop_bound c rest i h₁ h₂ h₃]
      simp [is_read]

/-- Nothing before `while(1)` reads from a descriptor. -/
theorem startup_no_read (env : Env) : ∀ e ∈ (startup env).1, is_read e = false := by
  have hb := bind_loop_no_read env.servinfo 0
  rcases startup_cases env with h | ⟨h, fd, hl⟩ | ⟨h, hl⟩ | ⟨h, ⟨p, fd, hl⟩, h₁⟩ |
    ⟨h, ⟨p, fd, hl⟩, h₁, h₂⟩ | ⟨h, ⟨p, fd, hl⟩, h₁, h₂⟩
  · rw [startup_gai_failed env h]
    simp [is_read]
  · rw [startup_fatal env fd h hl]
    simpa [is_read] using hb
  · rw [startup_null env h hl]
    intro e he
    simp at he
    rcases he with rfl | he | rfl | rfl
    · rfl
    · exact hb e he
    · rfl
    · rfl
  · rw [startup_listen_failed env p fd h hl h₁]
    intro e he
    simp at he
    rcases he with rfl | he | rfl | rfl | rfl
    · rfl
    · exact hb e he
    · rfl
    · rfl
    · rfl
  · rw [startup_sigaction_failed env p fd h hl h₁ h₂]
    intro e he
    simp at he
    rcases he with rfl | he | rfl | rfl | rfl | rfl
    · rfl
    · exact hb e he
    · rfl
    · rfl
    · rfl
    · rfl
  · rw [startup_serving env p fd h hl h₁ h₂]
    intro e he
    simp at he
    rcases he with rfl | he | rfl | rfl | rfl | rfl
    · rfl
    · exact hb e he
    · rfl
    · rfl
    · rfl
    · rfl

/-- No turn of the accept loop reads from a descriptor. -/
theorem loop_body_no_read (servsockfd : Int) (c : Conn) :
    ∀ e ∈ (loop_body servsockfd c).1, is_read e = false := by
  rcases loop_body_cases c with h₁ | ⟨h₁, h₂⟩ | ⟨h₁, h₂⟩
  · rw [loop_body_accept_failed servsockfd c h₁]
    simp [is_read]
  · rw [loop_body_child servsockfd c h₁ h₂]
    cases hs : c.sendRes with
    | returned ret =>
      rw [worker_returned servsockfd c.acceptRet c ret hs]
      by_cases hr : ret = -1 <;> simp [hr, is_read]
    | sigpipe =>
      rw [worker_sigpipe servsockfd c.acceptRet c hs]
      simp [is_read]
  · rw [loop_body_parent servsockfd c h₁ h₂]
    simp [is_read]

/-- The accept loop never reads from a descriptor. -/
theorem accept_loop_no_read (servsockfd : Int) (conns : List Conn) :
    ∀ e ∈ (accept_loop servsockfd conns).1, is_read e = false := by
  induction conns with
  | nil => simp [accept_loop]
  | cons c rest ih =>
    have hb := loop_body_no_read servsockfd c
    cases ho : (loop_body servsockfd c).2 with
    | none =>
      rw [accept_loop_continue servsockfd c rest ho]
      intro e he
      rcases List.mem_append.mp he with he | he
      · exact hb e he
      · exact ih e he
    | some o =>
      rw [accept_loop_stop servsockfd c rest o ho]
      exact hb

/-- No call of `main` reads from a descriptor. -/
theorem main_no_read (env : Env) : ∀ e ∈ (main env).1, is_read e = false := by
  have hs := startup_no_read env
  cases ho : (startup env).2 with
  | returned st =>
    rw [main_of_returned env st ho]
    exact hs
  | exited st =>
    rw [main_of_exited env st ho]
    exact hs
  | killed sig => exact absurd ho (startup_not_killed env sig)
  | serving fd =>
    rw [main_of_serving env fd ho]
    intro e he
    rcases List.mem_append.mp he with he | he
    · exact hs e he
    · exact accept_loop_no_read fd env.conns e he

/-- C9, as stated, fails: a worker on client descriptor 4 whose `send` raises
`SIGPIPE` makes, on that descriptor, the `send` only; no `close` follows. -/
theorem sigpipe_worker_never_closes :
    calls_on 4 (worker 3 4 ⟨4, [71, 69, 84], 0, .sigpipe⟩).1 =
      [Effect.send 4 "Hello, world!" 13 0 .sigpipe] ∧
    calls_on 4 (worker 3 4 ⟨4, [71, 69, 84], 0, .sigpipe⟩).1 ≠
      [Effect.send 4 "Hello, world!" 13 0 .sigpipe, Effect.close 4] ∧
    Effect.close 4 ∉ (loop_body 3 ⟨4, [71, 69, 84], 0, .sigpipe⟩).1 := by
  decide

/-- C9, amended: two runs of `main` in which the operating system answers
alike and only the bytes the clients send differ make the same calls and end
the same way, and neither issues a `recv` or `read`.  For one accepted
connection the processes coming out of the turn are the same in both runs,
none reads, and the worker's calls on the client descriptor are the same in
both runs: they begin with the one `send` of the 13 bytes "Hello, world!",
and when that `send` returns they are that `send` followed by `close`. -/
theorem client_data_ignored (env₁ env₂ : Env) (hsame : env₁.answers = env₂.answers) :
    main env₁ = main env₂ ∧
    (∀ e ∈ (main env₁).1, is_read e = false) ∧
    (∀ e ∈ (main env₂).1, is_read e = false) ∧
    (∀ servsockfd c₁ c₂, c₁.answers = c₂.answers →
      turn_runs servsockfd c₁ = turn_runs servsockfd c₂ ∧
      (∀ r ∈ turn_runs servsockfd c₁, ∀ e ∈ r.1, is_read e = false) ∧
      worker servsockfd c₁.acceptRet c₁ = worker servsockfd c₂.acceptRet c₂ ∧
      calls_on c₁.acceptRet (worker servsockfd c₁.acceptRet c₁).1 =
        calls_on c₂.acceptRet (worker servsockfd c₂.acceptRet c₂).1 ∧
      (c₁.acceptRet ≠ servsockfd →
        (calls_on c₁.acceptRet (worker servsockfd c₁.acceptRet c₁).1).take 1 =
          [Effect.send c₁.acceptRet "Hello, world!" 13 0 c₁.sendRes] ∧
        (calls_on c₁.acceptRet (worker servsockfd c₁.acceptRet c₁).1).filter is_send =
          [Effect.send c₁.acceptRet "Hello, world!" 13 0 c₁.sendRes] ∧
        ∀ ret, c₁.sendRes = .returned ret →
          calls_on c₁.acceptRet (worker servsockfd c₁.acceptRet c₁).1 =
            [Effect.send c₁.acceptRet "Hello, world!" 13 0 (.returned ret),
             Effect.close c₁.acceptRet] ∧
          calls_on c₂.acceptRet (worker servsockfd c₂.acceptRet c₂).1 =
            [Effect.send c₁.acceptRet "Hello, world!" 13 0 (.returned ret),
             Effect.close c₁.acceptRet])) := by
  refine ⟨main_answers env₁ env₂ hsame, main_no_read env₁, main_no_read env₂, ?_⟩
  intro servsockfd c₁ c₂ h
  have ha : c₂.acceptRet = c₁.acceptRet := by
    simp only [Conn.answers, Prod.mk.injEq] at h
    exact h.1.symm
  have hw : worker servsockfd c₁.acceptRet c₁ = worker servsockfd c₂.acceptRet c₂ := by
    simp only [Conn.answers, Prod.mk.injEq] at h
    simp [worker, h.1, h.2.2]
  have hcalls : ∀ ret, c₁.sendRes = .returned ret → c₁.acceptRet ≠ servsockfd →
      calls_on c₁.acceptRet (worker servsockfd c₁.acceptRet c₁).1 =
        [Effect.send c₁.acceptRet "Hello, world!" 13 0 (.returned ret),
         Effect.close c₁.acceptRet] := by
    intro ret hret hne
    have hne' : servsockfd ≠ c₁.acceptRet := fun h => hne h.symm
    rw [worker_returned servsockfd c₁.acceptRet c₁ ret hret]
    by_cases hr : ret = -1 <;>
      simp [calls_on, fd_of, hr, hne', greeting, List.filter_cons]
  refine ⟨turn_runs_answers servsockfd c₁ c₂ h, ?_, hw, by rw [← hw, ha], ?_⟩
  · intro r hr
    unfold turn_runs at hr
    rcases List.mem_cons.mp hr with rfl | hr
    · exact loop_body_no_read servsockfd c₁
    · split at hr
      · simp at hr
        subst hr
        exact loop_body_no_read servsockfd _
      · simp at hr
  · intro hne
    have hne' : servsockfd ≠ c₁.acceptRet := fun h => hne h.symm
    refine ⟨?_, ?_, ?_⟩
    · cases hs : c₁.sendRes with
      | returned ret =>
        rw [worker_returned servsockfd c₁.acceptRet c₁ ret hs]
        by_cases hr : ret = -1 <;>
          simp [calls_on, fd_of, hr, hne', greeting, List.filter_cons]
      | sigpipe =>
        rw [worker_sigpipe servsockfd c₁.acceptRet c₁ hs]
        simp [calls_on, fd_of, hne', greeting, List.filter_cons]
    · cases hs : c₁.sendRes with
      | returned ret =>
        rw [worker_returned servsockfd c₁.acceptRet c₁ ret hs]
        by_cases hr : ret = -1 <;>
          simp [calls_on, fd_of, is_send, hr, hne', greeting, List.filter_cons]
      | sigpipe =>
        rw [worker_sigpipe servsockfd c₁.acceptRet c₁ hs]
        simp [calls_on, fd_of, is_send, hne', greeting, List.filter_cons]
    · intro ret hret
      refine ⟨hcalls ret hret hne, ?_⟩
      rw [← hw, ha]
      exact hcalls ret hret hne

/-- Witness for `client_data_ignored`: the same connection with the client
sending `[71, 69, 84]` in one run and `[0]` in the other. -/
theorem client_data_ignored_witness :
    main ⟨0, [⟨3, 0, 0⟩], 0, 0, [⟨4, [71, 69, 84], 0, .returned 13⟩]⟩ =
      main ⟨0, [⟨3, 0, 0⟩], 0, 0, [⟨4, [0], 0, .returned 13⟩]⟩ :=
  (client_data_ignored ⟨0, [⟨3, 0, 0⟩], 0, 0, [⟨4, [71, 69, 84], 0, .returned 13⟩]⟩
    ⟨0, [⟨3, 0, 0⟩], 0, 0, [⟨4, [0], 0, .returned 13⟩]⟩ (by decide)).1

/-! ## The worker -/

/-- C1, as stated, fails: a worker (listening descriptor 3, client descriptor
4) whose `send` raises `SIGPIPE` is ended inside `send`; after `fork` it has
made only close(3) and the `send`, with no close(4), and it does not end with
`exit(0)`. -/
theorem worker_killed_by_sigpipe :
    (loop_body 3 ⟨4, [], 0, .sigpipe⟩).2 = some (Outcome.killed Signal.SIGPIPE) ∧
    (loop_body 3 ⟨4, [], 0, .sigpipe⟩).2 ≠ some (Outcome.exited 0) ∧
    (loop_body 3 ⟨4, [], 0, .sigpipe⟩).1.drop 4 =
      [Effect.close 3, Effect.send 4 "Hello, world!" 13 0 .sigpipe] ∧
    Effect.close 4 ∉ (loop_body 3 ⟨4, [], 0, .sigpipe⟩).1 := by
  decide

/-- C1, amended: in the `fork() == 0` branch of the accept loop the process
makes, after `fork`, the calls close(listening) and one
send(client, "Hello, world!", 13, 0), and never a `recv`/`read` or a second
`send`; the literal has 13 characters, so the 13 bytes sent are the literal
without its NUL terminator.  Whenever that `send` returns, with success or
with `-1`, the calls after `fork` are exactly close(listening), the `send`,
close(client), with only a `perror("send")` added between `send` and `close`
when `send` returned `-1`, and the process then ends with `exit(0)`. -/
theorem worker_run_exact (servsockfd : Int) (c : Conn)
    (hacc : c.acceptRet ≠ -1) (hfork : c.forkRet = 0) :
    (loop_body servsockfd c).1.take 4 =
      [Effect.accept servsockfd c.acceptRet, Effect.inet_ntop,
       Effect.printf "server: got connection from %s\n", Effect.fork 0] ∧
    (loop_body servsockfd c).1.drop 4 = (worker servsockfd c.acceptRet c).1 ∧
    (loop_body servsockfd c).2 = some (worker servsockfd c.acceptRet c).2 ∧
    (worker servsockfd c.acceptRet c).1.take 2 =
      [Effect.close servsockfd,
       Effect.send c.acceptRet "Hello, world!" 13 0 c.sendRes] ∧
    (∀ ret, c.sendRes = .returned ret →
      (loop_body servsockfd c).2 = some (Outcome.exited 0) ∧
      (worker servsockfd c.acceptRet c).2 = Outcome.exited 0 ∧
      ((worker servsockfd c.acceptRet c).1.filter (fun e => !is_diagnostic e) =
        [Effect.close servsockfd,
         Effect.send c.acceptRet "Hello, world!" 13 0 (.returned ret),
         Effect.close c.acceptRet]) ∧
      (ret ≠ -1 → (worker servsockfd c.acceptRet c).1 =
        [Effect.close servsockfd,
         Effect.send c.acceptRet "Hello, world!" 13 0 (.returned ret),
         Effect.close c.acceptRet]) ∧
      (ret = -1 → (worker servsockfd c.acceptRet c).1 =
        [Effect.close servsockfd,
         Effect.send c.acceptRet "Hello, world!" 13 0 (.returned (-1)),
         Effect.perror "send",
         Effect.close c.acceptRet])) ∧
    greeting.length = 13 ∧
    payload greeting 13 = greeting.toList ∧
    (c_literal greeting).length = 14 ∧
    (∀ e ∈ (loop_body servsockfd c).1, is_read e = false) ∧
    (loop_body servsockfd c).1.filter is_send =
      [Effect.send c.acceptRet "Hello, world!" 13 0 c.sendRes] := by
  have hlen : greeting.length = 13 := by decide
  have hpay : payload greeting 13 = greeting.toList := by decide
  have hlit : (c_literal greeting).length = 14 := by decide
  have hb := loop_body_child servsockfd c hacc hfork
  refine ⟨by rw [hb]; simp, by rw [hb]; simp, by rw [hb], ?_, ?_, hlen, hpay, hlit,
    loop_body_no_read servsockfd c, ?_⟩
  · cases hs : c.sendRes with
    | returned ret =>
      rw [worker_returned servsockfd c.acceptRet c ret hs]
      simp [greeting]
    | sigpipe =>
      rw [worker_sigpipe servsockfd c.acceptRet c hs]
      simp [greeting]
  · intro ret hret
    have hwr := worker_returned servsockfd c.acceptRet c ret hret
    refine ⟨by rw [hb, hwr], by rw [hwr], ?_, ?_, ?_⟩
    · rw [hwr]
      by_cases hr : ret = -1 <;> simp [hr, is_diagnostic, greeting, List.filter_cons]
    · intro hr
      rw [hwr]
      simp [hr, greeting]
    · intro hr
      rw [hwr]
      simp [hr, greeting]
  · rw [hb]
    simp [List.filter_cons, is_send, worker_sends_once]

/-- Witness for `worker_run_exact`: descriptor 3 listening, client on 4,
`send` returns 13. -/
theorem worker_run_exact_witness :
    (loop_body 3 ⟨4, [], 0, .returned 13⟩).2 = some (Outcome.exited 0) ∧
    (worker 3 4 ⟨4, [], 0, .returned 13⟩).1 =
      [Effect.close 3, Effect.send 4 "Hello, world!" 13 0 (.returned 13), Effect.close 4] :=
  have h := worker_run_exact 3 ⟨4, [], 0, .returned 13⟩ (by decide) rfl
  have h13 := h.2.2.2.2.1 13 rfl
  ⟨h13.1, h13.2.2.2.1 (by decide)⟩

end SimpleHttpServer
